import Mathlib

/-!
# Binance-US client (`Binance-US.js`): signing, event bus, socket handlers

A shallow embedding of the request-signing core (`generateSignature`,
`makeSignedRequest`, `sendMessageSigned`), of the `EventEmitter` class and of the
inbound message handlers and connection timers of `Socket` and `Stream`.

Conventions of the embedding.

* JavaScript values are the type `JSVal`.  Numbers are the integers (the
  fragment in which arithmetic is exact); strings are valid Unicode strings.
* A plain object is the list of its own enumerable properties in insertion
  order, `Obj`; `WF` says that no key occurs twice, as in every JavaScript
  object.
* `crypto.createHmac('sha256', key).update(msg).digest('hex')` is a function
  parameter `hmac key msg`: the development never looks inside it.
* A function that can throw returns `Except JSError _` or records the thrown
  value in an `outcome` field.
-/

namespace BinanceUS

/-! ## Values -/

/-- JavaScript values that occur as parameters and as parsed JSON payloads. -/
inductive JSVal where
  | undefined
  | null
  | bool (b : Bool)
  | num (n : Int)
  | str (s : String)
  | arr (xs : List JSVal)
  | obj (kvs : List (String × JSVal))

/-- Own enumerable properties of a plain object, in insertion order. -/
abbrev Obj := List (String × JSVal)

/-- Values a JavaScript function can throw. -/
inductive JSError where
  | typeError (msg : String)
  | syntaxError (msg : String)
  | thrown (tag : String)
  deriving DecidableEq, Repr

namespace JSVal

/-- The test `v === undefined`. -/
def isUndefined : JSVal → Bool
  | undefined => true
  | _ => false

mutual
/-- The abstract operation `ToString` (as in `String(v)` and in string
concatenation): an array joins the strings of its elements with commas, a
plain object is `[object Object]`. -/
def toStr : JSVal → String
  | undefined => "undefined"
  | null => "null"
  | bool true => "true"
  | bool false => "false"
  | num n => toString n
  | str s => s
  | arr xs => joinElems xs
  | obj _ => "[object Object]"
termination_by structural v => v
/-- The method `Array.prototype.join` with the default separator: `undefined` and
`null` elements contribute the empty string. -/
def joinElems : List JSVal → String
  | [] => ""
  | x :: r =>
    (match x with
      | undefined => ""
      | null => ""
      | v => toStr v)
      ++ (match r with
        | [] => ""
        | _ :: _ => ",")
      ++ joinElems r
termination_by structural l => l
end

/-- The abstract operation `ToBoolean`: the falsy values are `undefined`, `null`,
`false`, `0` and the empty string. -/
def truthy : JSVal → Bool
  | undefined => false
  | null => false
  | bool b => b
  | num n => n != 0
  | str s => s != ""
  | arr _ => true
  | obj _ => true

end JSVal

/-! ## Plain objects -/

namespace Obj

/-- The list `Object.keys(d)`. -/
def keys (d : Obj) : List String := d.map Prod.fst

/-- No key occurs twice. -/
def WF (d : Obj) : Prop := (keys d).Nodup

instance (d : Obj) : Decidable (WF d) := by unfold WF; infer_instance

/-- The own-property read `d[k]`: `undefined` when `k` is absent. -/
def get : Obj → String → JSVal
  | [], _ => .undefined
  | (k', v) :: r, k => if k' = k then v else get r k

/-- The assignment `d[k] = v`: an existing key keeps its position, a new key is
appended. -/
def set : Obj → String → JSVal → Obj
  | [], k, v => [(k, v)]
  | (k', v') :: r, k, v => if k' = k then (k, v) :: r else (k', v') :: set r k v

/-- The statement `delete d[k]`. -/
def delete (d : Obj) (k : String) : Obj := d.filter (fun p => decide (p.1 ≠ k))

end Obj

/-! ## `URLSearchParams` -/

/-- UTF-8 bytes of one character. -/
def utf8EncodeChar (c : Char) : List Nat :=
  let n := c.toNat
  if n < 0x80 then [n]
  else if n < 0x800 then [0xC0 + n / 64, 0x80 + n % 64]
  else if n < 0x10000 then [0xE0 + n / 4096, 0x80 + (n / 64) % 64, 0x80 + n % 64]
  else [0xF0 + n / 262144, 0x80 + (n / 4096) % 64, 0x80 + (n / 64) % 64, 0x80 + n % 64]

/-- UTF-16 code units of one character. -/
def utf16EncodeChar (c : Char) : List Nat :=
  let n := c.toNat
  if n < 0x10000 then [n]
  else [0xD800 + (n - 0x10000) / 0x400, 0xDC00 + (n - 0x10000) % 0x400]

/-- UTF-16 code units of a string, the sequence JavaScript compares. -/
def codeUnits (s : String) : List Nat := s.toList.flatMap utf16EncodeChar

/-- Upper-case hexadecimal digit. -/
def hexDigit (n : Nat) : Char :=
  if n < 10 then Char.ofNat (48 + n) else Char.ofNat (55 + n)

/-- Bytes the `application/x-www-form-urlencoded` serializer leaves as they are:
ASCII letters and digits and `*`, `-`, `.`, `_`. -/
def urlencodedKeep (b : Nat) : Bool :=
  b == 0x2A || b == 0x2D || b == 0x2E || b == 0x5F ||
  (0x30 ≤ b && b ≤ 0x39) || (0x41 ≤ b && b ≤ 0x5A) || (0x61 ≤ b && b ≤ 0x7A)

/-- One byte under the `application/x-www-form-urlencoded` serializer. -/
def urlencodedByte (b : Nat) : List Char :=
  if b = 0x20 then ['+']
  else if urlencodedKeep b then [Char.ofNat b]
  else ['%', hexDigit (b / 16), hexDigit (b % 16)]

/-- The `application/x-www-form-urlencoded` serialization of a string. -/
def urlencode (s : String) : String :=
  String.mk ((s.toList.flatMap utf8EncodeChar).flatMap urlencodedByte)

/-- Lexicographic `≤` on code-unit sequences. -/
def codeUnitsLE : List Nat → List Nat → Bool
  | [], _ => true
  | _ :: _, [] => false
  | a :: as, b :: bs => a < b || (a == b && codeUnitsLE as bs)

namespace URLSearchParams

/-- The constructor `new URLSearchParams(data)` for a plain object: one pair per own
property, the value converted to a string. -/
def ofObj (data : Obj) : List (String × String) :=
  data.map (fun p => (p.1, JSVal.toStr p.2))

/-- Order of `URLSearchParams.prototype.sort`: by the code units of the name. -/
def nameLE (p q : String × String) : Prop :=
  codeUnitsLE (codeUnits p.1) (codeUnits q.1) = true

instance : DecidableRel nameLE := fun p q => by unfold nameLE; infer_instance

/-- The method `sort()`: a stable sort of the pairs by name. -/
def sort (l : List (String × String)) : List (String × String) :=
  List.insertionSort nameLE l

/-- Order `nameLE` with ties allowed only between equal pairs (what `nameLE` is on
a list whose names are pairwise different). -/
def strictLE (p q : String × String) : Prop := nameLE p q ∧ (nameLE q p → p = q)

/-- One `name=value` item of the serialization. -/
def item (p : String × String) : String := urlencode p.1 ++ "=" ++ urlencode p.2

/-- The method `toString()`: the items joined by `&`. -/
def toString (l : List (String × String)) : String :=
  "&".intercalate (l.map item)

end URLSearchParams

/-! ## `generateSignature` (the same body in `Web` and in `Socket`) -/

/-- The statement
`Object.keys(data).forEach(key => data[key] === undefined && delete data[key])`. -/
def deleteUndefined (data : Obj) : Obj :=
  (Obj.keys data).foldl
    (fun acc key => if (Obj.get acc key).isUndefined then Obj.delete acc key else acc) data

/-- The sorted pair list `query` of `generateSignature`, from the mapping as it is
after the deletions. -/
def signedPairs (data : Obj) : List (String × String) :=
  URLSearchParams.sort (URLSearchParams.ofObj (deleteUndefined data))

/-- The string `query.toString()` that `generateSignature` feeds to the HMAC. -/
def signedQuery (data : Obj) : String :=
  URLSearchParams.toString (signedPairs data)

/-- The function `generateSignature(data)`: the hex digest together with `data` as
the call leaves it (the deletions are made on the caller's object). -/
def generateSignature (hmac : String → String → String) (secretKey : String)
    (data : Obj) : String × Obj :=
  (hmac secretKey (signedQuery data), deleteUndefined data)

/-! ## Loose equality and property reads -/

/-- Decimal value of a non-empty run of ASCII digits. -/
def parseDigits : List Char → Option Nat
  | [] => none
  | cs => cs.foldl
      (fun acc c =>
        match acc with
        | none => none
        | some n => if c.isDigit then some (10 * n + (c.toNat - 48)) else none)
      (some 0)

/-- White space and line terminators that `StringToNumber` strips. -/
def isJSSpace (c : Char) : Bool :=
  let n := c.toNat
  n == 0x20 || (0x09 ≤ n && n ≤ 0x0D) || n == 0xA0 || n == 0x1680 ||
  (0x2000 ≤ n && n ≤ 0x200A) || n == 0x2028 || n == 0x2029 || n == 0x202F ||
  n == 0x205F || n == 0x3000 || n == 0xFEFF

/-- The abstract operation `StringToNumber` on the integer fragment: surrounding
white space is stripped, the empty string is `0`, an optionally signed run of
decimal digits is its value; `none` stands for `NaN` and for every spelling of a
number that is not written as a decimal integer. -/
def stringToNumber (s : String) : Option Int :=
  let cs := ((s.toList.dropWhile isJSSpace).reverse.dropWhile isJSSpace).reverse
  match cs with
  | [] => some 0
  | '-' :: r => (parseDigits r).map (fun n => - (n : Int))
  | '+' :: r => (parseDigits r).map (fun n => (n : Int))
  | r => (parseDigits r).map (fun n => (n : Int))

/-- The comparison `v == s` for a string `s` (abstract loose equality with a string
on the right): a string compares by identity, a number or boolean with the
number the string spells, an array or object through its `ToString`. -/
def looseEqStr (v : JSVal) (s : String) : Bool :=
  match v with
  | .undefined => false
  | .null => false
  | .str t => t == s
  | .num n => stringToNumber s == some n
  | .bool b => stringToNumber s == some (if b then 1 else 0)
  | .arr xs => JSVal.toStr (.arr xs) == s
  | .obj kvs => JSVal.toStr (.obj kvs) == s

/-- The property read `data.name` for the names the handlers read (`id`, `e`, `u`,
`lastUpdateId`, `s`, `S`, `X`), none of which a built-in prototype defines:
reading from `null` or `undefined` throws, an object gives its own property and
every other value gives `undefined`. -/
def getProp (data : JSVal) (name : String) : Except JSError JSVal :=
  match data with
  | .undefined =>
    .error (.typeError ("Cannot read properties of undefined (reading '" ++ name ++ "')"))
  | .null => .error (.typeError ("Cannot read properties of null (reading '" ++ name ++ "')"))
  | .obj kvs => .ok (Obj.get kvs name)
  | _ => .ok .undefined

/-- A string of ASCII characters only. -/
def isASCII (s : String) : Bool := s.toList.all (fun c => c.toNat < 128)

/-- The method `String.prototype.toUpperCase` on strings of ASCII characters (`isASCII`):
the letters `a` to `z` go to `A` to `Z`.  Characters outside ASCII are kept as they
are, which is not the Unicode mapping of the method: statements about the code
take the string to be ASCII. -/
def toUpperCase (s : String) : String :=
  String.mk (s.toList.map fun c =>
    if 97 ≤ c.toNat ∧ c.toNat ≤ 122 then Char.ofNat (c.toNat - 32) else c)

/-- The method `String.prototype.toLowerCase` on strings of ASCII characters (`isASCII`):
the letters `A` to `Z` go to `a` to `z`.  Characters outside ASCII are kept as they
are, which is not the Unicode mapping of the method: statements about the code
take the string to be ASCII. -/
def toLowerCase (s : String) : String :=
  String.mk (s.toList.map fun c =>
    if 65 ≤ c.toNat ∧ c.toNat ≤ 90 then Char.ofNat (c.toNat + 32) else c)

/-! ## `EventEmitter` -/

/-- A registered listener function, named by a number. -/
abbrev Listener := Nat

/-- What a listener does when it is called with a payload: it returns or it throws.
Listeners are taken not to call back into the emitter. -/
abbrev Behaviour := Listener → JSVal → Except JSError Unit

/-- Property names every object literal inherits from `Object.prototype`. -/
def objectPrototypeKeys : List String :=
  ["constructor", "__defineGetter__", "__defineSetter__", "hasOwnProperty",
   "__lookupGetter__", "__lookupSetter__", "isPrototypeOf", "propertyIsEnumerable",
   "toString", "valueOf", "__proto__", "toLocaleString"]

/-- The class `EventEmitter`: `events` holds the own properties of `this.events`, each
an array of listeners. -/
structure EventEmitter where
  events : List (String × List Listener)

/-- What the read `this.events[event]` finds. -/
inductive Slot where
  | listeners (ls : List Listener)
  | inherited
  | absent

/-- A call `this.events.emit(event, data)`. -/
structure EmitCall where
  event : JSVal
  data : JSVal

/-- Trace of a handler run: the `emit` calls made, the listener calls made (in
order) and how the run ended. -/
structure Run where
  emitted : List EmitCall
  calls : List (Listener × JSVal)
  outcome : Except JSError Unit

namespace EventEmitter

/-- The constructor: `this.events = {}`. -/
def new : EventEmitter := ⟨[]⟩

/-- Own property of the table. -/
def own : List (String × List Listener) → String → Option (List Listener)
  | [], _ => none
  | (k', ls) :: r, k => if k' = k then some ls else own r k

/-- The read `this.events[event]`: an own array, else a member inherited from
`Object.prototype` (a function or the prototype itself, truthy in both cases),
else `undefined`. -/
def lookup (self : EventEmitter) (key : String) : Slot :=
  match own self.events key with
  | some ls => .listeners ls
  | none => if key ∈ objectPrototypeKeys then .inherited else .absent

/-- The statement `this.events[event].push(listener)` on an own array. -/
def push : List (String × List Listener) → String → Listener → List (String × List Listener)
  | [], _, _ => []
  | (k', ls) :: r, k, l => if k' = k then (k', ls ++ [l]) :: r else (k', ls) :: push r k l

/-- The method `on(event, listener)`; the property key is `ToString(event)`. -/
def «on» (self : EventEmitter) (event : JSVal) (listener : Listener) :
    Except JSError EventEmitter :=
  let key := event.toStr
  match lookup self key with
  | .absent => .ok ⟨self.events ++ [(key, [listener])]⟩
  | .listeners _ => .ok ⟨push self.events key listener⟩
  | .inherited => .error (.typeError "this.events[event].push is not a function")

/-- The loop `for (const callback of ...) callback(data)`: a throw ends it. -/
def callAll (beh : Behaviour) (data : JSVal) :
    List Listener → List (Listener × JSVal) × Except JSError Unit
  | [] => ([], .ok ())
  | l :: r =>
    match beh l data with
    | .ok _ => ((l, data) :: (callAll beh data r).1, (callAll beh data r).2)
    | .error e => ([(l, data)], .error e)

/-- The method `emit(event, data)`. -/
def emit (self : EventEmitter) (beh : Behaviour) (event data : JSVal) : Run :=
  match lookup self event.toStr with
  | .absent => ⟨[⟨event, data⟩], [], .ok ()⟩
  | .listeners ls => ⟨[⟨event, data⟩], (callAll beh data ls).1, (callAll beh data ls).2⟩
  | .inherited =>
    ⟨[⟨event, data⟩], [], .error (.typeError "this.events[event] is not iterable")⟩

/-- Listeners registered under a key, in the order of registration. -/
def registered (self : EventEmitter) (key : String) : List Listener :=
  (own self.events key).getD []

/-- A sequence of `on` calls, from the left; a throwing call ends it. -/
def onAll (self : EventEmitter) : List (JSVal × Listener) → Except JSError EventEmitter
  | [] => .ok self
  | (k, l) :: r =>
    match «on» self k l with
    | .ok e => onAll e r
    | .error err => .error err

end EventEmitter

/-! ## `Web` -/

/-- The configuration object of one `axios` call. -/
structure HttpRequest where
  method : String
  url : String
  headers : List (String × String)
  params : Obj

/-- The class `Web`. -/
structure Web where
  apiKey : String
  secretKey : String

namespace Web

/-- The constant `Web.apiURL`. -/
def apiURL : String := "https://api.binance.us"

/-- The method `Web.generateSignature`. -/
def generateSignature (hmac : String → String → String) (self : Web) (data : Obj) :
    String × Obj :=
  BinanceUS.generateSignature hmac self.secretKey data

/-- The method `makeSignedRequest(method, path, params = {})` with `Date.now()` equal to
`now`: the list of `axios` calls it makes. -/
def makeSignedRequest (hmac : String → String → String) (self : Web) (now : Int)
    (method path : String) (params : Option Obj) : List HttpRequest :=
  let params0 := params.getD []
  let params1 := Obj.set params0 "timestamp" (.num now)
  let params2 := Obj.set params1 "recvWindow" (.num 2000)
  let url := apiURL ++ path
  let sig := generateSignature hmac self params2
  let headers := [("X-MBX-APIKEY", self.apiKey)]
  [{ method := method, url := url, headers := headers,
     params := Obj.set sig.2 "signature" (.str sig.1) }]

end Web
/-! ## `Socket` -/

/-- Connection state of a `ws` socket. -/
inductive ReadyState where
  | connecting
  | open
  | closed
  deriving DecidableEq, Repr

/-- A `ws` socket as the client uses it: `sendCalls` lists, oldest first, the objects
given to `JSON.stringify` in the calls `socket.send(JSON.stringify(...))`. -/
structure WS where
  url : String
  readyState : ReadyState
  sendCalls : List JSVal

/-- Callbacks given to `setInterval`. -/
inductive TimerCallback where
  | sendPing
  | getListenKey (apiKey : String)

/-- An interval armed by `setInterval` and not cleared. -/
structure Timer where
  callback : TimerCallback
  delay : Nat

/-- Events of a connection: the transport reports `open`, `close` or `error`, or one
period of the armed intervals elapses. -/
inductive ConnEvent where
  | open
  | tick
  | close
  | error
  deriving DecidableEq, Repr

/-- The class `Socket`, with the intervals it has armed. -/
structure Socket where
  apiKey : String
  secretKey : String
  socket : Option WS
  events : EventEmitter
  timers : List Timer

namespace Socket

/-- The constant `Socket.websocketURL`. -/
def websocketURL : String := "wss://ws-api.binance.us:443/ws-api/v3"

/-- The constructor. -/
def new (apiKey secretKey : String) : Socket :=
  { apiKey := apiKey, secretKey := secretKey, socket := none,
    events := EventEmitter.new, timers := [] }

/-- The default `id = 0` of the two send methods: it applies when the argument is not
given or is `undefined`. -/
def idOrDefault : Option JSVal → JSVal
  | none => .num 0
  | some .undefined => .num 0
  | some v => v

/-- The object `{ id, method, params }` of an outbound frame. -/
def frame (id : JSVal) (method : String) (params : JSVal) : JSVal :=
  .obj [("id", id), ("method", .str method), ("params", params)]

/-- The call `this.socket.send(JSON.stringify(msg))`. -/
def send (self : Socket) (msg : JSVal) : Except JSError Socket :=
  match self.socket with
  | none => .error (.typeError "Cannot read properties of undefined (reading 'send')")
  | some ws => .ok { self with socket := some { ws with sendCalls := ws.sendCalls ++ [msg] } }

/-- The method `sendMessage(method, id = 0, params)`. -/
def sendMessage (self : Socket) (method : String) (id : Option JSVal)
    (params : Option JSVal) : Except JSError Socket :=
  send self (frame (idOrDefault id) method (params.getD .undefined))

/-- The method `Socket.generateSignature`. -/
def generateSignature (hmac : String → String → String) (self : Socket) (data : Obj) :
    String × Obj :=
  BinanceUS.generateSignature hmac self.secretKey data

/-- The method `sendMessageSigned(method, id = 0, params)` with `Date.now()` equal to
`now`; `params` is `none` when the argument is not given. -/
def sendMessageSigned (hmac : String → String → String) (self : Socket) (now : Int)
    (method : String) (id : Option JSVal) (params : Option Obj) : Except JSError Socket :=
  match params with
  | none => .error (.typeError "Cannot set properties of undefined (setting 'apiKey')")
  | some params0 =>
    let params1 := Obj.set params0 "apiKey" (.str self.apiKey)
    let params2 := Obj.set params1 "timestamp" (.num now)
    let params3 := Obj.set params2 "recvWindow" (.num 2000)
    let sig := generateSignature hmac self params3
    send self (frame (idOrDefault id) method
      (.obj (Obj.set sig.2 "signature" (.str sig.1))))

/-- The method `getUserAccountInformation()`. -/
def getUserAccountInformation (hmac : String → String → String) (self : Socket)
    (now : Int) : Except JSError Socket :=
  sendMessageSigned hmac self now "account.status" (some (.str "accountInformation")) none

/-- The method `getOrderRateLimits()`. -/
def getOrderRateLimits (hmac : String → String → String) (self : Socket)
    (now : Int) : Except JSError Socket :=
  sendMessageSigned hmac self now "account.rateLimits.orders" (some (.str "orderRateLimits"))
    none

/-- The method `getOpenOrders(symbol)`, one of the callers that pass a mapping. -/
def getOpenOrders (hmac : String → String → String) (self : Socket) (now : Int)
    (symbol : JSVal) : Except JSError Socket :=
  sendMessageSigned hmac self now "openOrders.status" (some (.str "openOrders"))
    (some [("symbol", symbol)])

/-- The method `sendPing()`. -/
def sendPing (self : Socket) : Except JSError Socket :=
  sendMessage self "ping" (some (.str "ping")) none

/-- The frame of a ping. -/
def pingFrame : JSVal := frame (.str "ping") "ping" .undefined

/-- The interval `setInterval(this.sendPing, 1000 * 60 * 3)`. -/
def pingTimer : Timer := ⟨.sendPing, 1000 * 60 * 3⟩

/-- The method `socketMessageHandler(data)`: the `emit` call it makes. -/
def socketMessageHandler (_self : Socket) (data : JSVal) : Except JSError EmitCall :=
  match getProp data "id" with
  | .ok id => .ok ⟨id, data⟩
  | .error e => .error e

/-- The `message` listener `(data) => this.socketMessageHandler(JSON.parse(data))`, given
how `JSON.parse(data)` ends: with a thrown error or with the parsed value.  The
result is the trace and the object afterwards. -/
def onMessage (self : Socket) (beh : Behaviour) (parsed : Except JSError JSVal) :
    Run × Socket :=
  match parsed with
  | .error e => (⟨[], [], .error e⟩, self)
  | .ok data =>
    match socketMessageHandler self data with
    | .error e => (⟨[], [], .error e⟩, self)
    | .ok call => (self.events.emit beh call.event call.data, self)

/-- The synchronous part of `connect()`: the socket is created and the four
listeners are attached. -/
def connect (self : Socket) : Socket :=
  { self with socket := some ⟨websocketURL, .connecting, []⟩ }

/-- The transport's own change of `readyState` at an event. -/
def transport (ws : WS) : ConnEvent → WS
  | .open => { ws with readyState := .open }
  | .close => { ws with readyState := .closed }
  | _ => ws

/-- Firing the armed intervals once each, in the order they were armed. -/
def fire (self : Socket) : List Timer → Except JSError Socket
  | [] => .ok self
  | t :: r =>
    match t.callback with
    | .sendPing =>
      match sendPing self with
      | .ok s => fire s r
      | .error e => .error e
    | .getListenKey _ => fire self r

/-- One event of a connected socket, through the listeners `connect` attached:
`open` sends a ping and arms the interval, `error` and `close` only log, a tick
runs the armed intervals. -/
def step (self : Socket) (ev : ConnEvent) : Except JSError Socket :=
  let s : Socket := { self with socket := self.socket.map (fun ws => transport ws ev) }
  match ev with
  | .open =>
    match sendPing s with
    | .ok s1 => .ok { s1 with timers := s1.timers ++ [pingTimer] }
    | .error e => .error e
  | .tick => fire s s.timers
  | .close => .ok s
  | .error => .ok s

/-- A sequence of events, from the left. -/
def run (self : Socket) : List ConnEvent → Except JSError Socket
  | [] => .ok self
  | ev :: r =>
    match step self ev with
    | .ok s => run s r
    | .error e => .error e

/-- The `send` calls made so far (none without a socket). -/
def sentFrames (self : Socket) : List JSVal :=
  match self.socket with
  | none => []
  | some ws => ws.sendCalls

end Socket

/-! ## `Stream` -/

/-- The class `Stream`, with the intervals it has armed and the `axios` calls it has
made (oldest first). -/
structure Stream where
  events : EventEmitter
  symbol : String
  apiKey : String
  listenKey : Option String
  socket : Option WS
  timers : List Timer
  requests : List HttpRequest

namespace Stream

/-- The constant `Stream.dataStreamURL`. -/
def dataStreamURL : String := "wss://stream.binance.us:9443/ws"

/-- The constant `Stream.apiURL`. -/
def apiURL : String := "https://api.binance.us"

/-- The constructor: the symbol is stored in lower case. -/
def new (symbol apiKey : String) : Stream :=
  { events := EventEmitter.new, symbol := toLowerCase symbol, apiKey := apiKey,
    listenKey := none, socket := none, timers := [], requests := [] }

/-- The `axios` call of `getListenKey(apiKey)`. -/
def listenKeyRequest (apiKey : String) : HttpRequest :=
  { method := "POST", url := apiURL ++ "/api/v3/userDataStream",
    headers := [("X-MBX-APIKEY", apiKey)], params := [] }

/-- The interval `setInterval(this.getListenKey, 1000 * 60 * 30, this.apiKey)`. -/
def renewTimer (apiKey : String) : Timer := ⟨.getListenKey apiKey, 1000 * 60 * 30⟩

/-- The method `orderUpdateHandler(data)`: the `emit` call it makes, if any. -/
def orderUpdateHandler (self : Stream) (data : JSVal) : Except JSError (Option EmitCall) :=
  match getProp data "s" with
  | .error e => .error e
  | .ok s =>
    if !(looseEqStr s (toUpperCase self.symbol)) then .ok none
    else
      match getProp data "S" with
      | .error e => .error e
      | .ok side =>
        if looseEqStr side "BUY" then
          match getProp data "X" with
          | .error e => .error e
          | .ok x => .ok (some ⟨.str ("BID_" ++ x.toStr), data⟩)
        else if looseEqStr side "SELL" then
          match getProp data "X" with
          | .error e => .error e
          | .ok x => .ok (some ⟨.str ("ASK_" ++ x.toStr), data⟩)
        else .ok none

/-- The method `socketMessageHandler(data)`: the `emit` call it makes, if any. -/
def socketMessageHandler (self : Stream) (data : JSVal) : Except JSError (Option EmitCall) :=
  match getProp data "e" with
  | .error e => .error e
  | .ok e =>
    if looseEqStr e "executionReport" then orderUpdateHandler self data
    else if e.truthy then .ok (some ⟨e, data⟩)
    else
      match getProp data "u" with
      | .error err => .error err
      | .ok u =>
        if u.truthy then .ok (some ⟨.str "bookTicker", data⟩)
        else
          match getProp data "lastUpdateId" with
          | .error err => .error err
          | .ok l =>
            if l.truthy then .ok (some ⟨.str "depth", data⟩)
            else .ok none

/-- The `message` listener `(data) => this.socketMessageHandler(JSON.parse(data))`, given
how `JSON.parse(data)` ends.  The result is the trace and the object afterwards. -/
def onMessage (self : Stream) (beh : Behaviour) (parsed : Except JSError JSVal) :
    Run × Stream :=
  match parsed with
  | .error e => (⟨[], [], .error e⟩, self)
  | .ok data =>
    match socketMessageHandler self data with
    | .error e => (⟨[], [], .error e⟩, self)
    | .ok none => (⟨[], [], .ok ()⟩, self)
    | .ok (some call) => (self.events.emit beh call.event call.data, self)

/-- The method `connect()` up to the creation of the socket, when the listen-key
request is answered with `key`: the request is made, the socket is created,
the listeners are attached and the renewal interval is armed. -/
def connect (self : Stream) (key : String) : Stream :=
  { self with
    listenKey := some key
    requests := self.requests ++ [listenKeyRequest self.apiKey]
    socket := some ⟨dataStreamURL ++ "/" ++ key, .connecting, []⟩
    timers := self.timers ++ [renewTimer self.apiKey] }

/-- What an armed interval does when it fires: the listen-key request. -/
def fireTimer (self : Stream) (t : Timer) : Stream :=
  match t.callback with
  | .getListenKey apiKey => { self with requests := self.requests ++ [listenKeyRequest apiKey] }
  | .sendPing => self

/-- One event of a connected stream, through the listeners `connect` attached: `open`
resolves the promise, `error` and `close` only log, a tick runs the armed
intervals. -/
def step (self : Stream) (ev : ConnEvent) : Stream :=
  let s : Stream := { self with socket := self.socket.map (fun ws => Socket.transport ws ev) }
  match ev with
  | .tick => s.timers.foldl fireTimer s
  | _ => s

/-- A sequence of events, from the left. -/
def run (self : Stream) (evs : List ConnEvent) : Stream := evs.foldl step self

end Stream

/-! ## `JSON.stringify`, unary plus and identifier lookup -/

/-- Lower-case hexadecimal digit, as in the escapes of `JSON.stringify`. -/
def hexDigitLower (n : Nat) : Char :=
  if n < 10 then Char.ofNat (48 + n) else Char.ofNat (87 + n)

/-- One character of a string under `QuoteJSONString`: the quote and the backslash
are escaped with a backslash, control characters have the short escapes `b`,
`t`, `n`, `f`, `r` or the form `u00XX`. -/
def jsonEscapeChar (c : Char) : List Char :=
  let n := c.toNat
  if n = 0x22 then [Char.ofNat 0x5C, Char.ofNat 0x22]
  else if n = 0x5C then [Char.ofNat 0x5C, Char.ofNat 0x5C]
  else if n = 0x08 then [Char.ofNat 0x5C, 'b']
  else if n = 0x09 then [Char.ofNat 0x5C, 't']
  else if n = 0x0A then [Char.ofNat 0x5C, 'n']
  else if n = 0x0C then [Char.ofNat 0x5C, 'f']
  else if n = 0x0D then [Char.ofNat 0x5C, 'r']
  else if n < 0x20 then
    [Char.ofNat 0x5C, 'u', '0', '0', hexDigitLower (n / 16), hexDigitLower (n % 16)]
  else [c]

/-- The operation `QuoteJSONString`. -/
def jsonQuote (s : String) : String :=
  String.mk (Char.ofNat 0x22 :: (s.toList.flatMap jsonEscapeChar ++ [Char.ofNat 0x22]))

mutual
/-- The text `JSON.stringify(v)` gives for a value other than `undefined`; inside an
array `undefined` is written `null`, inside an object a member whose value is
`undefined` is left out. -/
def jsonText : JSVal → String
  | .undefined => "null"
  | .null => "null"
  | .bool true => "true"
  | .bool false => "false"
  | .num n => toString n
  | .str s => jsonQuote s
  | .arr xs => "[" ++ jsonItems xs ++ "]"
  | .obj kvs => "\x7b" ++ jsonMembers kvs false ++ "\x7d"
termination_by structural v => v
/-- Elements of an array, separated by commas. -/
def jsonItems : List JSVal → String
  | [] => ""
  | x :: r =>
    jsonText x
      ++ (match r with
        | [] => ""
        | _ :: _ => ",")
      ++ jsonItems r
termination_by structural l => l
/-- Members of an object, separated by commas; `started` says that a member has
been written already. -/
def jsonMembers : List (String × JSVal) → Bool → String
  | [], _ => ""
  | (k, v) :: r, started =>
    match v with
    | .undefined => jsonMembers r started
    | w =>
      (if started then "," else "") ++ jsonQuote k ++ ":" ++ jsonText w ++ jsonMembers r true
termination_by structural l => l
end

/-- The function `JSON.stringify(v)`: `undefined` for `undefined`, else the text. -/
def jsonStringify : JSVal → JSVal
  | .undefined => .undefined
  | v => .str (jsonText v)

/-- The unary plus `+v` (the operation `ToNumber`) on the integer fragment; `none`
stands for `NaN`.  An array or object is converted through its `ToString`. -/
def toNumber : JSVal → Option Int
  | .undefined => none
  | .null => some 0
  | .bool b => some (if b then 1 else 0)
  | .num n => some n
  | .str s => stringToNumber s
  | .arr xs => stringToNumber (JSVal.toStr (.arr xs))
  | .obj kvs => stringToNumber (JSVal.toStr (.obj kvs))

/-- The expression `+v || v`: the number `+v` when it is neither `NaN` nor zero,
else `v` itself. -/
def plusOrSelf (v : JSVal) : JSVal :=
  match toNumber v with
  | some n => if n = 0 then v else .num n
  | none => v

/-- The error of reading an identifier that no scope binds. -/
def referenceError (name : String) : JSError :=
  .thrown ("ReferenceError: " ++ name ++ " is not defined")

/-- Reading an identifier inside a method whose parameters are bound in `scope`; the
module declares no other variable that the method bodies read and the global
object has none of these names. -/
def resolve (scope : Obj) (name : String) : Except JSError JSVal :=
  if name ∈ Obj.keys scope then .ok (Obj.get scope name) else .error (referenceError name)

/-- The properties of an object literal `{ a, b, ... }` of shorthand properties, added
to `acc` from left to right; reading an unbound identifier ends it. -/
def shorthandFrom (scope : Obj) : Obj → List String → Except JSError Obj
  | acc, [] => .ok acc
  | acc, name :: r =>
    match resolve scope name with
    | .error e => .error e
    | .ok v => shorthandFrom scope (Obj.set acc name v) r

/-- The object literal `{ a, b, ... }` of shorthand properties. -/
def shorthand (scope : Obj) (names : List String) : Except JSError Obj :=
  shorthandFrom scope [] names

/-- A parameter with a default value: the default applies to `undefined`. -/
def orDefault (v d : JSVal) : JSVal :=
  match v with
  | .undefined => d
  | w => w

/-- The block that the ticker methods share,
`if (symbols) { if (typeof symbols === 'string') params.symbol = symbols;
else params.symbols = JSON.stringify(symbols); }`. -/
def setSymbols (params : Obj) (symbols : JSVal) : Obj :=
  if symbols.truthy then
    match symbols with
    | .str s => Obj.set params "symbol" (.str s)
    | v => Obj.set params "symbols" (jsonStringify v)
  else params

/-- The rule of the specification for the `symbols` argument, over the parameters
`params` a method builds: a non-empty string is sent as `symbol`, an array as the
JSON text under `symbols`, an absent argument (or the empty string) as neither,
and never both keys. -/
def SymbolRule (symbols : JSVal) (params : Obj) : Prop :=
  (∀ s, symbols = .str s → s ≠ "" →
    Obj.get params "symbol" = .str s ∧ "symbols" ∉ Obj.keys params)
  ∧ (∀ a, symbols = .arr a →
    Obj.get params "symbols" = .str (jsonText (.arr a)) ∧ "symbol" ∉ Obj.keys params)
  ∧ (symbols = .undefined ∨ symbols = .str "" →
    "symbol" ∉ Obj.keys params ∧ "symbols" ∉ Obj.keys params)
  ∧ ¬ ("symbol" ∈ Obj.keys params ∧ "symbols" ∈ Obj.keys params)

namespace Web

/-- The call `axios.get(url, { params, headers })`. -/
def axiosGet (url : String) (params : Obj) (headers : List (String × String)) : HttpRequest :=
  { method := "GET", url := url, headers := headers, params := params }

/-- The method `getServerTime()`: the `axios` calls it makes. -/
def getServerTime (_self : Web) : Except JSError (List HttpRequest) :=
  .ok [axiosGet "/api/v3/time" [] []]

/-- The method `getSystemStatus()`. -/
def getSystemStatus (hmac : String → String → String) (self : Web) (now : Int) :
    Except JSError (List HttpRequest) :=
  .ok (makeSignedRequest hmac self now "GET" "/sapi/v1/system/status" none)

/-- The method `getExchangeInformation(symbols)`. -/
def getExchangeInformation (_self : Web) (symbols : JSVal) :
    Except JSError (List HttpRequest) :=
  .ok [axiosGet (apiURL ++ "/api/v3/exchangeInfo") (setSymbols [] symbols) []]

/-- The method `getRecentTrades(symbol, limit = 500)`. -/
def getRecentTrades (_self : Web) (symbol limit : JSVal) :
    Except JSError (List HttpRequest) :=
  match shorthand [("symbol", symbol), ("limit", orDefault limit (.num 500))]
      ["symbol", "limit"] with
  | .error e => .error e
  | .ok params => .ok [axiosGet (apiURL ++ "/api/v3/trades") params []]

/-- The method `getLiveTickerPrice(symbols)`. -/
def getLiveTickerPrice (_self : Web) (symbols : JSVal) : Except JSError (List HttpRequest) :=
  .ok [axiosGet (apiURL ++ "/api/v3/ticker/price") (setSymbols [] symbols) []]

/-- The method `getBestOrderBookPrice(symbols)`. -/
def getBestOrderBookPrice (_self : Web) (symbols : JSVal) :
    Except JSError (List HttpRequest) :=
  .ok [axiosGet (apiURL ++ "/api/v3/ticker/bookTicker") (setSymbols [] symbols) []]

/-- The method `getPriceChangeStatistics(symbols)`. -/
def getPriceChangeStatistics (_self : Web) (symbols : JSVal) :
    Except JSError (List HttpRequest) :=
  .ok [axiosGet (apiURL ++ "/api/v3/ticker/24hr") (setSymbols [] symbols) []]

/-- The method
`getRollingWindowPriceChangeStatistics(symbols, windowSize = '1d', type = 'FULL')`. -/
def getRollingWindowPriceChangeStatistics (_self : Web) (symbols windowSize type : JSVal) :
    Except JSError (List HttpRequest) :=
  match shorthand [("symbols", symbols), ("windowSize", orDefault windowSize (.str "1d")),
      ("type", orDefault type (.str "FULL"))] ["windowSize", "type"] with
  | .error e => .error e
  | .ok params => .ok [axiosGet (apiURL ++ "/api/v3/ticker") (setSymbols params symbols) []]

/-- The method `getOpenOrders(symbol)`. -/
def getOpenOrders (hmac : String → String → String) (self : Web) (now : Int)
    (symbol : JSVal) : Except JSError (List HttpRequest) :=
  match shorthand [("symbol", symbol)] ["symbol"] with
  | .error e => .error e
  | .ok params => .ok (makeSignedRequest hmac self now "GET" "/api/v3/openOrders" (some params))

/-- The method `cancelOrder(symbol, orderId, newClientOrderId, cancelRestrictions)`, whose
object literal is
`{ symbol, orderId, origClientOrderId, newClientOrderId, cancelRestrictions }`. -/
def cancelOrder (hmac : String → String → String) (self : Web) (now : Int)
    (symbol orderId newClientOrderId cancelRestrictions : JSVal) :
    Except JSError (List HttpRequest) :=
  match shorthand [("symbol", symbol), ("orderId", orderId),
      ("newClientOrderId", newClientOrderId), ("cancelRestrictions", cancelRestrictions)]
      ["symbol", "orderId", "origClientOrderId", "newClientOrderId", "cancelRestrictions"] with
  | .error e => .error e
  | .ok params => .ok (makeSignedRequest hmac self now "DELETE" "/api/v3/order" (some params))

/-- The method `cancelOpenOrders(symbol)`. -/
def cancelOpenOrders (hmac : String → String → String) (self : Web) (now : Int)
    (symbol : JSVal) : Except JSError (List HttpRequest) :=
  match shorthand [("symbol", symbol)] ["symbol"] with
  | .error e => .error e
  | .ok params =>
    .ok (makeSignedRequest hmac self now "DELETE" "/api/v3/openOrders" (some params))

end Web

namespace Socket

/-- The method `getExchangeInformation(symbols)` of `Socket`. -/
def getExchangeInformation (self : Socket) (symbols : JSVal) : Except JSError Socket :=
  sendMessage self "exchangeInfo" (some (.str "exchangeInformation"))
    (some (.obj (setSymbols [] symbols)))

/-- The method `getLiveTickerPrice(symbols)` of `Socket`. -/
def getLiveTickerPrice (self : Socket) (symbols : JSVal) : Except JSError Socket :=
  sendMessage self "ticker.price" (some (.str "liveTickerPrice"))
    (some (.obj (setSymbols [] symbols)))

/-- The method `getBestOrderBookPrice(symbols)` of `Socket`. -/
def getBestOrderBookPrice (self : Socket) (symbols : JSVal) : Except JSError Socket :=
  sendMessage self "ticker.book" (some (.str "orderBookTicker"))
    (some (.obj (setSymbols [] symbols)))

/-- The method `getPriceChangeStatistics(symbols)` of `Socket`. -/
def getPriceChangeStatistics (self : Socket) (symbols : JSVal) : Except JSError Socket :=
  sendMessage self "ticker.24hr" (some (.str "priceChangeStatistics"))
    (some (.obj (setSymbols [] symbols)))

/-- The method
`getRollingWindowPriceChangeStatistics(symbols, windowSize = '1d', type = 'FULL')` of
`Socket`. -/
def getRollingWindowPriceChangeStatistics (self : Socket) (symbols windowSize type : JSVal) :
    Except JSError Socket :=
  match shorthand [("symbols", symbols), ("windowSize", orDefault windowSize (.str "1d")),
      ("type", orDefault type (.str "FULL"))] ["windowSize", "type"] with
  | .error e => .error e
  | .ok params =>
    sendMessage self "ticker" (some (.str "rollingWindowPriceChangeStatistice"))
      (some (.obj (setSymbols params symbols)))

/-- The method `cancelOrder(symbol, orderId, newClientOrderId, cancelRestrictions)` of
`Socket`, whose object literal is
`{ symbol, orderId, newClientOrderId, cancelRestrictions }`. -/
def cancelOrder (hmac : String → String → String) (self : Socket) (now : Int)
    (symbol orderId newClientOrderId cancelRestrictions : JSVal) : Except JSError Socket :=
  match shorthand [("symbol", symbol), ("orderId", orderId),
      ("newClientOrderId", newClientOrderId), ("cancelRestrictions", cancelRestrictions)]
      ["symbol", "orderId", "newClientOrderId", "cancelRestrictions"] with
  | .error e => .error e
  | .ok params =>
    sendMessageSigned hmac self now "order.cancel" (some (.str "cancelOrder")) (some params)

end Socket

namespace Stream

/-- The function `parseNumbers(data)`,
`for (const key in data) data[key] = +data[key] || data[key]`: the mapping as the
call leaves it. -/
def parseNumbers (data : Obj) : Obj :=
  (Obj.keys data).foldl (fun acc key => Obj.set acc key (plusOrSelf (Obj.get acc key))) data

end Stream

/-! ## Query string written by `axios` -/

/-- A string, a number or a boolean. -/
def JSVal.isScalar : JSVal → Bool
  | .str _ => true
  | .num _ => true
  | .bool _ => true
  | _ => false

/-- The name/value pairs that `axios` writes into the query string for the `params` of a
request: an entry whose value is `null` or `undefined` is left out; a string,
number or boolean is written under its key as its `ToString`.  An array or an
object is written in forms of the library's own (repeated `key[]`, bracketed
keys, JSON text) which are not modelled: the result is then `none`. -/
def axiosQueryPairs : Obj → Option (List (String × String))
  | [] => some []
  | (k, v) :: r =>
    match v with
    | .undefined => axiosQueryPairs r
    | .null => axiosQueryPairs r
    | .arr _ => none
    | .obj _ => none
    | w => (axiosQueryPairs r).map (fun l => (k, w.toStr) :: l)

/-! ## Lemmas on objects and on the deletion of unset keys -/

theorem Obj.get_of_mem {d : Obj} (hd : Obj.WF d) {k : String} {v : JSVal}
    (hm : (k, v) ∈ d) : Obj.get d k = v := by
  induction d with
  | nil => simp at hm
  | cons p r ih =>
    obtain ⟨k', v'⟩ := p
    have hnd : k' ∉ Obj.keys r ∧ Obj.WF r := by
      simpa [Obj.WF, Obj.keys] using hd
    rcases List.mem_cons.mp hm with h | h
    · cases h
      simp [Obj.get]
    · have hk : k ∈ Obj.keys r := List.mem_map.mpr ⟨(k, v), h, rfl⟩
      have hne : k' ≠ k := fun e => hnd.1 (e ▸ hk)
      simp [Obj.get, hne, ih hnd.2 h]

theorem Obj.WF_filter {d : Obj} (hd : Obj.WF d) (f : String × JSVal → Bool) :
    Obj.WF (d.filter f) :=
  List.Nodup.sublist ((List.filter_sublist d).map Prod.fst) hd

theorem deleteUndefined_foldl (ks : List String) :
    ∀ d : Obj, Obj.WF d →
      ks.foldl (fun acc key =>
          if (Obj.get acc key).isUndefined then Obj.delete acc key else acc) d
        = d.filter (fun p => !(p.2.isUndefined && decide (p.1 ∈ ks))) := by
  induction ks with
  | nil => intro d _; simp
  | cons k ks ih =>
    intro d hd
    rw [List.foldl_cons]
    by_cases hu : (Obj.get d k).isUndefined = true
    · rw [if_pos hu, Obj.delete, ih _ (Obj.WF_filter hd _), List.filter_filter]
      apply List.filter_congr
      rintro ⟨k', v'⟩ hp
      by_cases hk : k' = k
      · subst hk
        have : v'.isUndefined = true := by rw [← Obj.get_of_mem hd hp]; exact hu
        simp [this]
      · simp [hk]
    · rw [if_neg hu, ih _ hd]
      apply List.filter_congr
      rintro ⟨k', v'⟩ hp
      by_cases hk : k' = k
      · subst hk
        have : v'.isUndefined = false := by
          rw [← Obj.get_of_mem hd hp]; simpa using hu
        simp [this]
      · simp [hk]

/-- On an object, the `forEach` of `generateSignature` keeps exactly the entries whose
value is not `undefined`, in their order. -/
theorem deleteUndefined_eq_filter {d : Obj} (hd : Obj.WF d) :
    deleteUndefined d = d.filter (fun p => !p.2.isUndefined) := by
  unfold deleteUndefined
  rw [deleteUndefined_foldl _ d hd]
  apply List.filter_congr
  rintro ⟨k, v⟩ hp
  have : k ∈ Obj.keys d := List.mem_map.mpr ⟨(k, v), hp, rfl⟩
  simp [this]

/-! ## Lemmas on the order of `sort()` -/

theorem char_toNat_valid (c : Char) :
    c.toNat < 0xD800 ∨ (0xDFFF < c.toNat ∧ c.toNat < 0x110000) := c.valid

theorem char_eq_of_toNat_eq {c d : Char} (h : c.toNat = d.toNat) : c = d := by
  apply Char.ext
  apply UInt32.ext
  exact h

theorem utf16EncodeChar_append_inj {c d : Char} {r t : List Nat}
    (h : utf16EncodeChar c ++ r = utf16EncodeChar d ++ t) : c = d ∧ r = t := by
  have hc := char_toNat_valid c
  have hd := char_toNat_valid d
  unfold utf16EncodeChar at h
  by_cases h1 : c.toNat < 0x10000 <;> by_cases h2 : d.toNat < 0x10000
  · simp only [h1, h2, if_true, List.singleton_append, List.cons.injEq] at h
    exact ⟨char_eq_of_toNat_eq h.1, h.2⟩
  · simp only [h1, h2, if_true, if_false, List.singleton_append, List.cons_append,
      List.cons.injEq] at h
    omega
  · simp only [h1, h2, if_true, if_false, List.singleton_append, List.cons_append,
      List.cons.injEq] at h
    omega
  · simp only [h1, h2, if_false, List.cons_append, List.nil_append, List.cons.injEq] at h
    refine ⟨char_eq_of_toNat_eq ?_, h.2.2⟩
    omega

theorem utf16EncodeChar_ne_nil (c : Char) (r : List Nat) : utf16EncodeChar c ++ r ≠ [] := by
  unfold utf16EncodeChar
  by_cases h1 : c.toNat < 0x10000 <;> simp [h1]

theorem flatMap_utf16_inj : ∀ l m : List Char,
    l.flatMap utf16EncodeChar = m.flatMap utf16EncodeChar → l = m := by
  intro l
  induction l with
  | nil =>
    intro m h
    cases m with
    | nil => rfl
    | cons d m =>
      rw [List.flatMap_cons] at h
      exact absurd h.symm (utf16EncodeChar_ne_nil d _)
  | cons c l ih =>
    intro m h
    cases m with
    | nil =>
      rw [List.flatMap_cons] at h
      exact absurd h (utf16EncodeChar_ne_nil c _)
    | cons d m =>
      rw [List.flatMap_cons, List.flatMap_cons] at h
      obtain ⟨h1, h2⟩ := utf16EncodeChar_append_inj h
      rw [h1, ih m h2]

/-- Two strings with the same UTF-16 code units are the same string. -/
theorem codeUnits_injective {s t : String} (h : codeUnits s = codeUnits t) : s = t :=
  String.ext (flatMap_utf16_inj _ _ h)

theorem codeUnitsLE_total : ∀ a b : List Nat, codeUnitsLE a b = true ∨ codeUnitsLE b a = true
  | [], _ => Or.inl rfl
  | _ :: _, [] => Or.inr rfl
  | a :: as, b :: bs => by
    have ih := codeUnitsLE_total as bs
    simp only [codeUnitsLE, Bool.or_eq_true, Bool.and_eq_true, decide_eq_true_eq, beq_iff_eq]
    rcases Nat.lt_trichotomy a b with h | h | h
    · exact Or.inl (Or.inl h)
    · rcases ih with ih | ih
      · exact Or.inl (Or.inr ⟨h, ih⟩)
      · exact Or.inr (Or.inr ⟨h.symm, ih⟩)
    · exact Or.inr (Or.inl h)

theorem codeUnitsLE_trans : ∀ a b c : List Nat,
    codeUnitsLE a b = true → codeUnitsLE b c = true → codeUnitsLE a c = true
  | [], _, _ => fun _ _ => rfl
  | _ :: _, [], _ => fun h _ => by simp [codeUnitsLE] at h
  | _ :: _, _ :: _, [] => fun _ h => by simp [codeUnitsLE] at h
  | a :: as, b :: bs, c :: cs => by
    have ih := codeUnitsLE_trans as bs cs
    simp only [codeUnitsLE, Bool.or_eq_true, Bool.and_eq_true, decide_eq_true_eq, beq_iff_eq]
    rintro (h1 | ⟨h1, h1'⟩) (h2 | ⟨h2, h2'⟩)
    · exact Or.inl (Nat.lt_trans h1 h2)
    · exact Or.inl (h2 ▸ h1)
    · exact Or.inl (h1 ▸ h2)
    · exact Or.inr ⟨h1.trans h2, ih h1' h2'⟩

theorem codeUnitsLE_antisymm : ∀ a b : List Nat,
    codeUnitsLE a b = true → codeUnitsLE b a = true → a = b
  | [], [] => fun _ _ => rfl
  | [], _ :: _ => fun _ h => by simp [codeUnitsLE] at h
  | _ :: _, [] => fun h _ => by simp [codeUnitsLE] at h
  | a :: as, b :: bs => by
    have ih := codeUnitsLE_antisymm as bs
    simp only [codeUnitsLE, Bool.or_eq_true, Bool.and_eq_true, decide_eq_true_eq, beq_iff_eq]
    rintro (h1 | ⟨h1, h1'⟩) (h2 | ⟨h2, h2'⟩)
    · omega
    · omega
    · omega
    · rw [h1, ih h1' h2']

namespace URLSearchParams

theorem sort_perm (l : List (String × String)) : List.Perm (sort l) l :=
  List.perm_insertionSort nameLE l

theorem sort_sorted (l : List (String × String)) : List.Sorted nameLE (sort l) :=
  @List.sorted_insertionSort _ nameLE _ ⟨fun _ _ => codeUnitsLE_total _ _⟩
    ⟨fun _ _ _ => codeUnitsLE_trans _ _ _⟩ l

theorem sorted_strictLE {l : List (String × String)} (hnd : (l.map Prod.fst).Nodup)
    (hs : List.Sorted nameLE l) : List.Sorted strictLE l := by
  refine List.Pairwise.imp_of_mem ?_ hs
  intro a b ha hb hab
  refine ⟨hab, fun hba => ?_⟩
  have hk : a.1 = b.1 := codeUnits_injective (codeUnitsLE_antisymm _ _ hab hba)
  exact List.inj_on_of_nodup_map hnd ha hb hk

/-- With pairwise different names, the sorted list depends only on the set of pairs. -/
theorem sort_eq_of_perm {l m : List (String × String)} (h : List.Perm l m)
    (hnd : (l.map Prod.fst).Nodup) : sort l = sort m := by
  have hp : List.Perm (sort l) (sort m) := ((sort_perm l).trans h).trans (sort_perm m).symm
  have hl : ((sort l).map Prod.fst).Nodup := (((sort_perm l).map Prod.fst).nodup_iff).mpr hnd
  have hm : ((sort m).map Prod.fst).Nodup := ((hp.map Prod.fst).nodup_iff).mp hl
  exact @List.eq_of_perm_of_sorted _ strictLE ⟨fun _ _ h1 h2 => h1.2 h2.1⟩ _ _ hp
    (sorted_strictLE hl (sort_sorted l)) (sorted_strictLE hm (sort_sorted m))

end URLSearchParams

/-! ## More lemmas on objects -/

theorem JSVal.eq_undefined_of_isUndefined {v : JSVal} (h : v.isUndefined = true) :
    v = .undefined := by
  cases v <;> simp [JSVal.isUndefined] at h ⊢

theorem Obj.get_mem {d : Obj} {k : String} (h : (Obj.get d k).isUndefined = false) :
    (k, Obj.get d k) ∈ d := by
  induction d with
  | nil => simp [Obj.get, JSVal.isUndefined] at h
  | cons p r ih =>
    obtain ⟨k', v'⟩ := p
    by_cases hk : k' = k
    · subst hk; simp [Obj.get]
    · simp only [Obj.get, hk, if_false] at h ⊢
      exact List.mem_cons_of_mem _ (ih h)

theorem Obj.get_of_not_mem {d : Obj} {k : String} (h : k ∉ Obj.keys d) :
    Obj.get d k = .undefined := by
  induction d with
  | nil => rfl
  | cons p r ih =>
    obtain ⟨k', v'⟩ := p
    have h' : ¬ k = k' ∧ k ∉ Obj.keys r := by simpa [Obj.keys] using h
    have hne : ¬ k' = k := fun e => h'.1 e.symm
    simp [Obj.get, hne, ih h'.2]

theorem Obj.get_set (d : Obj) (k : String) (v : JSVal) (k' : String) :
    Obj.get (Obj.set d k v) k' = if k = k' then v else Obj.get d k' := by
  induction d with
  | nil => simp [Obj.set, Obj.get]
  | cons p r ih =>
    obtain ⟨k0, v0⟩ := p
    by_cases h0 : k0 = k
    · subst h0
      by_cases h1 : k0 = k' <;> simp [Obj.set, Obj.get, h1]
    · by_cases h1 : k0 = k'
      · subst h1
        have : ¬ k = k0 := fun e => h0 e.symm
        simp [Obj.set, Obj.get, h0, this]
      · simp [Obj.set, Obj.get, h0, h1, ih]

theorem Obj.set_of_not_mem {d : Obj} {k : String} (v : JSVal) (h : k ∉ Obj.keys d) :
    Obj.set d k v = d ++ [(k, v)] := by
  induction d with
  | nil => rfl
  | cons p r ih =>
    obtain ⟨k', v'⟩ := p
    have h' : ¬ k = k' ∧ k ∉ Obj.keys r := by simpa [Obj.keys] using h
    have hne : ¬ k' = k := fun e => h'.1 e.symm
    simp [Obj.set, hne, ih h'.2]

theorem Obj.keys_set_of_mem {d : Obj} {k : String} (v : JSVal) (h : k ∈ Obj.keys d) :
    Obj.keys (Obj.set d k v) = Obj.keys d := by
  induction d with
  | nil => simp [Obj.keys] at h
  | cons p r ih =>
    obtain ⟨k', v'⟩ := p
    by_cases hk : k' = k
    · subst hk; simp [Obj.set, Obj.keys]
    · have h' : k ∈ Obj.keys r := by
        have : k = k' ∨ k ∈ Obj.keys r := by simpa [Obj.keys] using h
        rcases this with e | e
        · exact absurd e.symm hk
        · exact e
      have := ih h'
      simp only [Obj.keys] at this
      simp [Obj.set, hk, Obj.keys, this]

theorem Obj.WF_set {d : Obj} (hd : Obj.WF d) (k : String) (v : JSVal) :
    Obj.WF (Obj.set d k v) := by
  by_cases h : k ∈ Obj.keys d
  · unfold Obj.WF; rw [Obj.keys_set_of_mem v h]; exact hd
  · rw [Obj.set_of_not_mem v h]
    unfold Obj.WF Obj.keys
    rw [List.map_append]
    refine List.Nodup.append hd (by simp) ?_
    intro a ha hb
    have : a = k := by simpa using hb
    exact h (this ▸ ha)

theorem Obj.not_mem_keys_of_get {d : Obj} (hd : Obj.WF d)
    (hv : ∀ p ∈ d, p.2.isUndefined = false) {k : String}
    (h : (Obj.get d k).isUndefined = true) : k ∉ Obj.keys d := by
  intro hk
  obtain ⟨⟨k0, v0⟩, hp, rfl⟩ := List.mem_map.mp hk
  have := Obj.get_of_mem hd hp
  have hv0 := hv _ hp
  simp only at this hv0
  rw [this, hv0] at h
  exact Bool.noConfusion h

theorem Obj.get_filter {d : Obj} (hd : Obj.WF d) (k : String) :
    Obj.get (d.filter fun p => !p.2.isUndefined) k = Obj.get d k := by
  have hwf := Obj.WF_filter hd (fun p => !p.2.isUndefined)
  cases hu : (Obj.get d k).isUndefined with
  | false =>
    have hm := Obj.get_mem hu
    have : (k, Obj.get d k) ∈ d.filter fun p => !p.2.isUndefined :=
      List.mem_filter.mpr ⟨hm, by simp [hu]⟩
    exact Obj.get_of_mem hwf this
  | true =>
    rw [JSVal.eq_undefined_of_isUndefined hu]
    cases hf : (Obj.get (d.filter fun p => !p.2.isUndefined) k).isUndefined with
    | true => exact JSVal.eq_undefined_of_isUndefined hf
    | false =>
      have hm := (List.mem_filter.mp (Obj.get_mem hf)).1
      have := Obj.get_of_mem hd hm
      rw [this, hf] at hu
      exact Bool.noConfusion hu

theorem Obj.delete_append_self {d : Obj} {k : String} (v : JSVal) (h : k ∉ Obj.keys d) :
    Obj.delete (d ++ [(k, v)]) k = d := by
  unfold Obj.delete
  rw [List.filter_append]
  have h1 : d.filter (fun p => decide (p.1 ≠ k)) = d := by
    apply List.filter_eq_self.mpr
    rintro ⟨k', v'⟩ hp
    have : k' ≠ k := fun e => h (e ▸ List.mem_map.mpr ⟨(k', v'), hp, rfl⟩)
    simpa using this
  rw [h1]
  simp

theorem keys_ofObj (d : Obj) : (URLSearchParams.ofObj d).map Prod.fst = Obj.keys d := by
  simp [URLSearchParams.ofObj, Obj.keys, List.map_map, Function.comp_def]

theorem deleteUndefined_idem {d : Obj} (hd : Obj.WF d) :
    deleteUndefined (d.filter fun p => !p.2.isUndefined) = deleteUndefined d := by
  rw [deleteUndefined_eq_filter (Obj.WF_filter hd _), deleteUndefined_eq_filter hd,
    List.filter_filter]
  simp

/-! ## Signing -/

/-- C1: `generateSignature(params)` is the signature of `params` without its
`undefined`-valued keys; the signed query string is made of one `key=value` item
for exactly the keys whose value is not `undefined`; adding or removing an
`undefined`-valued key leaves the signature as it is. -/
theorem generateSignature_ignores_undefined (hmac : String → String → String)
    (secretKey : String) (data : Obj) (hd : Obj.WF data) :
    (generateSignature hmac secretKey data).1
        = (generateSignature hmac secretKey (data.filter fun p => !p.2.isUndefined)).1
    ∧ signedQuery data = "&".intercalate ((signedPairs data).map URLSearchParams.item)
    ∧ List.Perm (signedPairs data)
        (URLSearchParams.ofObj (data.filter fun p => !p.2.isUndefined))
    ∧ (∀ k, k ∈ (signedPairs data).map Prod.fst ↔
        ∃ v, (k, v) ∈ data ∧ v.isUndefined = false)
    ∧ (∀ k, k ∉ Obj.keys data →
        (generateSignature hmac secretKey (Obj.set data k .undefined)).1
          = (generateSignature hmac secretKey data).1)
    ∧ (∀ k, (Obj.get data k).isUndefined = true →
        (generateSignature hmac secretKey (Obj.delete data k)).1
          = (generateSignature hmac secretKey data).1) := by
  have hperm : List.Perm (signedPairs data)
      (URLSearchParams.ofObj (data.filter fun p => !p.2.isUndefined)) := by
    unfold signedPairs
    rw [deleteUndefined_eq_filter hd]
    exact URLSearchParams.sort_perm _
  refine ⟨?_, rfl, hperm, ?_, ?_, ?_⟩
  · simp only [generateSignature, signedQuery, signedPairs, deleteUndefined_idem hd]
  · intro k
    rw [(hperm.map Prod.fst).mem_iff, keys_ofObj]
    constructor
    · intro h
      obtain ⟨⟨k0, v0⟩, hp, rfl⟩ := List.mem_map.mp h
      obtain ⟨hp1, hp2⟩ := List.mem_filter.mp hp
      exact ⟨v0, hp1, by simpa using hp2⟩
    · rintro ⟨v, hv1, hv2⟩
      exact List.mem_map.mpr ⟨(k, v), List.mem_filter.mpr ⟨hv1, by simp [hv2]⟩, rfl⟩
  · intro k hk
    have hwf : Obj.WF (Obj.set data k .undefined) := Obj.WF_set hd k _
    have : deleteUndefined (Obj.set data k .undefined) = deleteUndefined data := by
      rw [deleteUndefined_eq_filter hwf, deleteUndefined_eq_filter hd,
        Obj.set_of_not_mem _ hk, List.filter_append]
      simp [JSVal.isUndefined]
    simp only [generateSignature, signedQuery, signedPairs, this]
  · intro k hk
    have hwf : Obj.WF (Obj.delete data k) := Obj.WF_filter hd _
    have : deleteUndefined (Obj.delete data k) = deleteUndefined data := by
      rw [deleteUndefined_eq_filter hwf, deleteUndefined_eq_filter hd, Obj.delete,
        List.filter_filter]
      apply List.filter_congr
      rintro ⟨k', v'⟩ hp
      by_cases e : k' = k
      · subst e
        have : v'.isUndefined = true := by rw [← Obj.get_of_mem hd hp]; exact hk
        simp [this]
      · simp [e]
    simp only [generateSignature, signedQuery, signedPairs, this]

/-- C1 at `{b: 2, x: undefined, a: "1"}`. -/
theorem generateSignature_ignores_undefined_witness :
    Obj.WF [("b", .num 2), ("x", .undefined), ("a", .str "1")]
    ∧ (generateSignature (fun key msg => key ++ ":" ++ msg) "secret"
          [("b", .num 2), ("x", .undefined), ("a", .str "1")]).1
        = (generateSignature (fun key msg => key ++ ":" ++ msg) "secret"
          (([("b", .num 2), ("x", .undefined), ("a", .str "1")] : Obj).filter
            fun p => !p.2.isUndefined)).1 :=
  ⟨by decide,
    (generateSignature_ignores_undefined (fun key msg => key ++ ":" ++ msg) "secret"
      [("b", .num 2), ("x", .undefined), ("a", .str "1")] (by decide)).1⟩

/-- C2: two mappings with the same key/value pairs in different insertion orders get
the same signature: the signed pair list, hence the signed query string, is the
same, and it lists the surviving keys in ascending order of their code units. -/
theorem generateSignature_insertion_order (hmac : String → String → String)
    (secretKey : String) (d₁ d₂ : Obj) (hd : Obj.WF d₁) (hp : List.Perm d₁ d₂) :
    (generateSignature hmac secretKey d₁).1 = (generateSignature hmac secretKey d₂).1
    ∧ signedQuery d₁ = signedQuery d₂
    ∧ List.Sorted (fun a b => codeUnitsLE (codeUnits a) (codeUnits b) = true)
        ((signedPairs d₁).map Prod.fst)
    ∧ ((signedPairs d₁).map Prod.fst).Nodup := by
  have hd₂ : Obj.WF d₂ := ((hp.map Prod.fst).nodup_iff).mp hd
  have hnd : ((URLSearchParams.ofObj (deleteUndefined d₁)).map Prod.fst).Nodup := by
    rw [keys_ofObj, deleteUndefined_eq_filter hd]
    exact Obj.WF_filter hd _
  have hpairs : signedPairs d₁ = signedPairs d₂ := by
    unfold signedPairs
    apply URLSearchParams.sort_eq_of_perm _ hnd
    rw [deleteUndefined_eq_filter hd, deleteUndefined_eq_filter hd₂]
    exact (hp.filter _).map _
  refine ⟨?_, ?_, ?_, ?_⟩
  · simp only [generateSignature, signedQuery, hpairs]
  · simp only [signedQuery, hpairs]
  · exact List.pairwise_map.mpr (URLSearchParams.sort_sorted _)
  · exact (((URLSearchParams.sort_perm _).map Prod.fst).nodup_iff).mpr hnd

/-- C2 at `{b: 2, a: 1}` and `{a: 1, b: 2}`. -/
theorem generateSignature_insertion_order_witness :
    Obj.WF [("b", .num 2), ("a", .num 1)]
    ∧ (generateSignature (fun key msg => key ++ ":" ++ msg) "secret"
          [("b", .num 2), ("a", .num 1)]).1
        = (generateSignature (fun key msg => key ++ ":" ++ msg) "secret"
          [("a", .num 1), ("b", .num 2)]).1 :=
  ⟨by decide,
    (generateSignature_insertion_order (fun key msg => key ++ ":" ++ msg) "secret"
      [("b", .num 2), ("a", .num 1)] [("a", .num 1), ("b", .num 2)] (by decide)
      (List.Perm.swap _ _ _)).1⟩

/-- What `{ ...params, signature }` holds after `generateSignature(params)`, for a
mapping `P` that has no `signature` entry of its own: the entries of `P` that
are not `undefined`, and a signature computed over exactly those. -/
theorem attach_signature (hmac : String → String → String) (secretKey : String) (P : Obj)
    (hP : Obj.WF P) (hs : (Obj.get P "signature").isUndefined = true) :
    Obj.WF (Obj.set (generateSignature hmac secretKey P).2 "signature"
        (.str (generateSignature hmac secretKey P).1))
    ∧ (∀ p ∈ Obj.set (generateSignature hmac secretKey P).2 "signature"
        (.str (generateSignature hmac secretKey P).1), p.2.isUndefined = false)
    ∧ (∀ k, k ≠ "signature" →
        Obj.get (Obj.set (generateSignature hmac secretKey P).2 "signature"
          (.str (generateSignature hmac secretKey P).1)) k = Obj.get P k)
    ∧ Obj.get (Obj.set (generateSignature hmac secretKey P).2 "signature"
          (.str (generateSignature hmac secretKey P).1)) "signature"
        = .str (generateSignature hmac secretKey
            (Obj.delete (Obj.set (generateSignature hmac secretKey P).2 "signature"
              (.str (generateSignature hmac secretKey P).1)) "signature")).1
    ∧ List.Perm
        (signedPairs (Obj.delete (Obj.set (generateSignature hmac secretKey P).2 "signature"
          (.str (generateSignature hmac secretKey P).1)) "signature"))
        (URLSearchParams.ofObj
          (Obj.delete (Obj.set (generateSignature hmac secretKey P).2 "signature"
            (.str (generateSignature hmac secretKey P).1)) "signature")) := by
  have hD : (generateSignature hmac secretKey P).2 = P.filter fun p => !p.2.isUndefined :=
    deleteUndefined_eq_filter hP
  have hwfD : Obj.WF (P.filter fun p => !p.2.isUndefined) := Obj.WF_filter hP _
  have hvals : ∀ p ∈ P.filter fun p => !p.2.isUndefined, p.2.isUndefined = false := by
    intro p hp
    simpa using (List.mem_filter.mp hp).2
  have hsD : (Obj.get (P.filter fun p => !p.2.isUndefined) "signature").isUndefined = true := by
    rw [Obj.get_filter hP]; exact hs
  have hnot : "signature" ∉ Obj.keys (P.filter fun p => !p.2.isUndefined) :=
    Obj.not_mem_keys_of_get hwfD hvals hsD
  have hidem : deleteUndefined (P.filter fun p => !p.2.isUndefined)
      = P.filter fun p => !p.2.isUndefined := by
    rw [deleteUndefined_idem hP, deleteUndefined_eq_filter hP]
  rw [hD]
  have hdel : Obj.delete (Obj.set (P.filter fun p => !p.2.isUndefined) "signature"
      (.str (generateSignature hmac secretKey P).1)) "signature"
      = P.filter fun p => !p.2.isUndefined := by
    rw [Obj.set_of_not_mem _ hnot, Obj.delete_append_self _ hnot]
  refine ⟨Obj.WF_set hwfD _ _, ?_, ?_, ?_, ?_⟩
  · intro p hp
    rw [Obj.set_of_not_mem _ hnot] at hp
    rcases List.mem_append.mp hp with h | h
    · exact hvals p h
    · have : p = ("signature", JSVal.str (generateSignature hmac secretKey P).1) := by
        simpa using h
      rw [this]; rfl
  · intro k hk
    rw [Obj.get_set, if_neg (fun e => hk e.symm), Obj.get_filter hP]
  · rw [hdel, Obj.get_set, if_pos rfl]
    simp only [generateSignature, signedQuery, signedPairs, deleteUndefined_idem hP]
  · rw [hdel]
    unfold signedPairs
    rw [hidem]
    exact URLSearchParams.sort_perm _

theorem axiosQueryPairs_scalar (d : Obj) (h : ∀ p ∈ d, p.2.isScalar = true) :
    axiosQueryPairs d = some (URLSearchParams.ofObj d) := by
  induction d with
  | nil => rfl
  | cons p r ih =>
    obtain ⟨k, v⟩ := p
    have hv : v.isScalar = true := h (k, v) (List.mem_cons_self _ _)
    have hr := ih (fun q hq => h q (List.mem_cons_of_mem _ hq))
    cases v with
    | undefined => simp [JSVal.isScalar] at hv
    | null => simp [JSVal.isScalar] at hv
    | arr xs => simp [JSVal.isScalar] at hv
    | obj kvs => simp [JSVal.isScalar] at hv
    | bool b => simp [axiosQueryPairs, hr, URLSearchParams.ofObj]
    | num n => simp [axiosQueryPairs, hr, URLSearchParams.ofObj]
    | str s => simp [axiosQueryPairs, hr, URLSearchParams.ofObj]

theorem ofObj_filter_name (d : Obj) (k : String) :
    (URLSearchParams.ofObj d).filter (fun q => decide (q.1 ≠ k))
      = URLSearchParams.ofObj (Obj.delete d k) := by
  unfold URLSearchParams.ofObj Obj.delete
  rw [List.filter_map]
  rfl

/-- C3, the claim as stated fails: called with a mapping that has a `signature` entry,
`makeSignedRequest` signs the pair `signature=x` and sends another value under
that key, so the signature sent is not the signature of the other parameters
sent; called with a `null` value, it signs the pair `symbol=null`, which `axios`
leaves out of the query it sends. -/
theorem makeSignedRequest_signature_key_counterexample :
    (Web.makeSignedRequest (fun _ msg => msg) ⟨"K", "S"⟩ 1 "GET" "/api/v3/order"
        (some [("signature", .str "x")])).map
      (fun r => (URLSearchParams.ofObj r.params,
        signedQuery (Obj.delete r.params "signature")))
      = [([("signature", "recvWindow=2000&signature=x&timestamp=1"),
            ("timestamp", "1"), ("recvWindow", "2000")],
          "recvWindow=2000&timestamp=1")]
    ∧ ¬ (∀ (hmac : String → String → String) (self : Web) (now : Int)
          (method path : String) (params : Obj), Obj.WF params →
          ∀ req ∈ Web.makeSignedRequest hmac self now method path (some params),
            Obj.get req.params "signature"
              = .str (Web.generateSignature hmac self
                  (Obj.delete req.params "signature")).1)
    ∧ (Web.makeSignedRequest (fun _ msg => msg) ⟨"K", "S"⟩ 1 "GET" "/api/v3/order"
        (some [("symbol", .null)])).map (fun r => axiosQueryPairs r.params)
      = [some [("timestamp", "1"), ("recvWindow", "2000"),
          ("signature", "recvWindow=2000&symbol=null&timestamp=1")]] := by
  refine ⟨by decide, fun h => ?_, by decide⟩
  have h1 := h (fun _ msg => msg) ⟨"K", "S"⟩ 1 "GET" "/api/v3/order"
    [("signature", .str "x")] (by decide) _ (List.mem_singleton_self _)
  exact absurd (JSVal.str.inj h1) (by decide)

/-- C3 as amended: for a caller mapping without a `signature` entry (absent or
`undefined`) whose values are strings, numbers, booleans or `undefined`,
`makeSignedRequest` makes one request, to `Web.apiURL + path`, with the API key in
the header `X-MBX-APIKEY` only; its parameters have no key twice and no
`undefined` value; apart from `signature` they are the caller's entries with
`timestamp` set to the clock and `recvWindow` set to 2000; every one of them is
written into the query by `axios`, under its key once; and `signature` is
`generateSignature` over exactly the parameters sent other than `signature`. -/
theorem makeSignedRequest_signs_what_it_sends (hmac : String → String → String)
    (self : Web) (now : Int) (method path : String) (params : Obj)
    (hd : Obj.WF params) (hs : (Obj.get params "signature").isUndefined = true)
    (hv : ∀ p ∈ params, p.2.isUndefined = true ∨ p.2.isScalar = true) :
    ∃ (req : HttpRequest) (sent : List (String × String)),
      Web.makeSignedRequest hmac self now method path (some params) = [req]
      ∧ req.method = method ∧ req.url = Web.apiURL ++ path
      ∧ req.headers = [("X-MBX-APIKEY", self.apiKey)]
      ∧ Obj.WF req.params
      ∧ (∀ p ∈ req.params, p.2.isUndefined = false)
      ∧ (∀ k, k ≠ "signature" →
          Obj.get req.params k
            = if "recvWindow" = k then .num 2000
              else if "timestamp" = k then .num now else Obj.get params k)
      ∧ Obj.get req.params "signature"
          = .str (Web.generateSignature hmac self (Obj.delete req.params "signature")).1
      ∧ List.Perm (signedPairs (Obj.delete req.params "signature"))
          (URLSearchParams.ofObj (Obj.delete req.params "signature"))
      ∧ axiosQueryPairs req.params = some sent
      ∧ sent = URLSearchParams.ofObj req.params
      ∧ (sent.map Prod.fst).Nodup
      ∧ List.Perm (sent.filter (fun q => decide (q.1 ≠ "signature")))
          (signedPairs (Obj.delete req.params "signature"))
      ∧ ("signature",
          (Web.generateSignature hmac self (Obj.delete req.params "signature")).1) ∈ sent := by
  have hwf : Obj.WF (Obj.set (Obj.set params "timestamp" (.num now)) "recvWindow"
      (.num 2000)) := Obj.WF_set (Obj.WF_set hd _ _) _ _
  have hsig : (Obj.get (Obj.set (Obj.set params "timestamp" (.num now)) "recvWindow"
      (.num 2000)) "signature").isUndefined = true := by
    rw [Obj.get_set, if_neg (by decide), Obj.get_set, if_neg (by decide)]
    exact hs
  obtain ⟨h1, h2, h3, h4, h5⟩ := attach_signature hmac self.secretKey _ hwf hsig
  have hget : ∀ k, k ≠ "signature" →
      Obj.get (Obj.set (generateSignature hmac self.secretKey
          (Obj.set (Obj.set params "timestamp" (.num now)) "recvWindow" (.num 2000))).2
          "signature" (.str (generateSignature hmac self.secretKey
          (Obj.set (Obj.set params "timestamp" (.num now)) "recvWindow" (.num 2000))).1)) k
        = if "recvWindow" = k then .num 2000
          else if "timestamp" = k then .num now else Obj.get params k := by
    intro k hk
    exact (h3 k hk).trans (by rw [Obj.get_set, Obj.get_set])
  have hscal : ∀ p ∈ Obj.set (generateSignature hmac self.secretKey
      (Obj.set (Obj.set params "timestamp" (.num now)) "recvWindow" (.num 2000))).2
      "signature" (.str (generateSignature hmac self.secretKey
      (Obj.set (Obj.set params "timestamp" (.num now)) "recvWindow" (.num 2000))).1),
      p.2.isScalar = true := by
    rintro ⟨k, v⟩ hp
    have hg := Obj.get_of_mem h1 hp
    have hu : v.isUndefined = false := h2 _ hp
    by_cases hk : k = "signature"
    · subst hk
      rw [h4] at hg
      rw [← hg]; rfl
    · rw [hget k hk] at hg
      by_cases hr : "recvWindow" = k
      · rw [if_pos hr] at hg
        rw [← hg]; rfl
      · rw [if_neg hr] at hg
        by_cases ht : "timestamp" = k
        · rw [if_pos ht] at hg
          rw [← hg]; rfl
        · rw [if_neg ht] at hg
          have hm : (k, Obj.get params k) ∈ params := Obj.get_mem (by rw [hg]; exact hu)
          rcases hv _ hm with h | h
          · rw [hg, hu] at h
            exact Bool.noConfusion h
          · rw [hg] at h
            exact h
  have hsent := axiosQueryPairs_scalar _ hscal
  refine ⟨_, _, rfl, rfl, rfl, rfl, h1, h2, hget, h4, h5, hsent, rfl, ?_, ?_, ?_⟩
  · rw [keys_ofObj]
    exact h1
  · rw [ofObj_filter_name]
    exact h5.symm
  · have hm := Obj.get_mem (d := Obj.set (generateSignature hmac self.secretKey
        (Obj.set (Obj.set params "timestamp" (.num now)) "recvWindow" (.num 2000))).2
        "signature" (.str (generateSignature hmac self.secretKey
        (Obj.set (Obj.set params "timestamp" (.num now)) "recvWindow" (.num 2000))).1))
      (k := "signature") (by rw [h4]; rfl)
    rw [h4] at hm
    exact List.mem_map.mpr ⟨_, hm, rfl⟩

/-- C3 as amended, at `DELETE /api/v3/order` with `{symbol: "BTCUSD", orderId: undefined}`. -/
theorem makeSignedRequest_signs_what_it_sends_witness :
    Obj.WF [("symbol", .str "BTCUSD"), ("orderId", .undefined)]
    ∧ (Obj.get [("symbol", .str "BTCUSD"), ("orderId", .undefined)] "signature").isUndefined
        = true
    ∧ (∀ p ∈ ([("symbol", .str "BTCUSD"), ("orderId", .undefined)] : Obj),
        p.2.isUndefined = true ∨ p.2.isScalar = true)
    ∧ ∃ (req : HttpRequest) (sent : List (String × String)),
      Web.makeSignedRequest (fun key msg => key ++ ":" ++ msg) ⟨"K", "S"⟩ 1700000000000
          "DELETE" "/api/v3/order" (some [("symbol", .str "BTCUSD"), ("orderId", .undefined)])
        = [req]
      ∧ req.url = "https://api.binance.us/api/v3/order"
      ∧ axiosQueryPairs req.params = some sent :=
  ⟨by decide, by decide,
    by intro p hp; simp at hp; rcases hp with h | h <;> subst h <;> simp [JSVal.isUndefined,
      JSVal.isScalar],
    match makeSignedRequest_signs_what_it_sends (fun key msg => key ++ ":" ++ msg)
        ⟨"K", "S"⟩ 1700000000000 "DELETE" "/api/v3/order"
        [("symbol", .str "BTCUSD"), ("orderId", .undefined)] (by decide) (by decide)
        (by intro p hp; simp at hp; rcases hp with h | h <;> subst h <;>
          simp [JSVal.isUndefined, JSVal.isScalar]) with
    | ⟨req, sent, h1, _, h3, _, _, _, _, _, _, h10, _⟩ => ⟨req, sent, h1, h3, h10⟩⟩

/-- C4, the code at the failing input: called without a `params` argument, as
`getUserAccountInformation` and `getOrderRateLimits` call it, `sendMessageSigned`
throws a `TypeError` at its first statement and no frame is sent. -/
theorem sendMessageSigned_without_params_throws (hmac : String → String → String)
    (self : Socket) (now : Int) :
    Socket.getUserAccountInformation hmac self now
        = .error (.typeError "Cannot set properties of undefined (setting 'apiKey')")
    ∧ Socket.getOrderRateLimits hmac self now
        = .error (.typeError "Cannot set properties of undefined (setting 'apiKey')")
    ∧ ∀ (method : String) (id : Option JSVal),
        Socket.sendMessageSigned hmac self now method id none
          = .error (.typeError "Cannot set properties of undefined (setting 'apiKey')") :=
  ⟨rfl, rfl, fun _ _ => rfl⟩

/-- With a `params` mapping that has no `signature` entry and a socket in place,
`sendMessageSigned` sends one frame `{id, method, params}` whose `params` are the
caller's entries that are not `undefined`, `apiKey`, `timestamp`, `recvWindow`
and the signature over those. -/
theorem sendMessageSigned_with_params (hmac : String → String → String) (self : Socket)
    (ws : WS) (hws : self.socket = some ws) (now : Int) (method : String)
    (id : Option JSVal) (params : Obj) (hd : Obj.WF params)
    (hs : (Obj.get params "signature").isUndefined = true) :
    ∃ sent : Obj,
      Socket.sendMessageSigned hmac self now method id (some params)
        = .ok { self with socket := some { ws with
            sendCalls := ws.sendCalls
              ++ [Socket.frame (Socket.idOrDefault id) method (.obj sent)] } }
      ∧ Obj.WF sent
      ∧ (∀ p ∈ sent, p.2.isUndefined = false)
      ∧ (∀ k, k ≠ "signature" →
          Obj.get sent k
            = if "recvWindow" = k then .num 2000
              else if "timestamp" = k then .num now
              else if "apiKey" = k then .str self.apiKey else Obj.get params k)
      ∧ Obj.get sent "signature"
          = .str (Socket.generateSignature hmac self (Obj.delete sent "signature")).1 := by
  have hwf : Obj.WF (Obj.set (Obj.set (Obj.set params "apiKey" (.str self.apiKey))
      "timestamp" (.num now)) "recvWindow" (.num 2000)) :=
    Obj.WF_set (Obj.WF_set (Obj.WF_set hd _ _) _ _) _ _
  have hsig : (Obj.get (Obj.set (Obj.set (Obj.set params "apiKey" (.str self.apiKey))
      "timestamp" (.num now)) "recvWindow" (.num 2000)) "signature").isUndefined = true := by
    rw [Obj.get_set, if_neg (by decide), Obj.get_set, if_neg (by decide), Obj.get_set,
      if_neg (by decide)]
    exact hs
  obtain ⟨h1, h2, h3, h4, _⟩ := attach_signature hmac self.secretKey _ hwf hsig
  refine ⟨_, ?_, h1, h2, ?_, h4⟩
  · simp only [Socket.sendMessageSigned, Socket.send, hws]
    rfl
  · intro k hk
    exact (h3 k hk).trans (by rw [Obj.get_set, Obj.get_set, Obj.get_set])

/-! ## Classification of inbound stream messages -/

theorem stringToNumber_executionReport : stringToNumber "executionReport" = none := by decide

theorem looseEqStr_executionReport_of_falsy {v : JSVal} (h : v.truthy = false) :
    looseEqStr v "executionReport" = false := by
  cases v with
  | undefined => rfl
  | null => rfl
  | bool b => simp [looseEqStr, stringToNumber_executionReport]
  | num n => simp [looseEqStr, stringToNumber_executionReport]
  | str s =>
    have : s = "" := by simpa [JSVal.truthy] using h
    subst this
    decide
  | arr xs => simp [JSVal.truthy] at h
  | obj kvs => simp [JSVal.truthy] at h

/-- C5, the claim as stated fails: the handler tests the fields for truthiness, not for
presence.  The payload `{u: 0}` has a field `u` and no field `e` and emits
nothing; the payload `{e: "", u: 5}` has a field `e` and is emitted under
`bookTicker`, not under the value of `e`. -/
theorem socketMessageHandler_presence_counterexample :
    ("u" ∈ Obj.keys [("u", .num 0)] ∧ "e" ∉ Obj.keys [("u", .num 0)]
      ∧ Stream.socketMessageHandler (Stream.new "btcusd" "key") (.obj [("u", .num 0)])
          = .ok none)
    ∧ ("e" ∈ Obj.keys [("e", .str ""), ("u", .num 5)]
      ∧ Stream.socketMessageHandler (Stream.new "btcusd" "key")
            (.obj [("e", .str ""), ("u", .num 5)])
          = .ok (some ⟨.str "bookTicker", .obj [("e", .str ""), ("u", .num 5)]⟩)) :=
  ⟨⟨by decide, by decide, rfl⟩, by decide, rfl⟩

/-- C5 as amended: on an object payload the handler applies these rules in order and
the first that matches decides: `e == "executionReport"` gives the order-update
classification; otherwise a truthy `e` is emitted under the value of `e`;
otherwise a truthy `u` is emitted under `bookTicker`; otherwise a truthy
`lastUpdateId` is emitted under `depth`; otherwise nothing is emitted.  A field
that is absent, `undefined`, `null`, `false`, `0` or the empty string counts as
not there.  The data emitted is the payload itself. -/
theorem socketMessageHandler_rules (self : Stream) (p : Obj) :
    (looseEqStr (Obj.get p "e") "executionReport" = true →
      Stream.socketMessageHandler self (.obj p) = Stream.orderUpdateHandler self (.obj p))
    ∧ (∀ s, Obj.get p "e" = .str s → s ≠ "executionReport" → s ≠ "" →
      Stream.socketMessageHandler self (.obj p) = .ok (some ⟨.str s, .obj p⟩))
    ∧ (looseEqStr (Obj.get p "e") "executionReport" = false →
      (Obj.get p "e").truthy = true →
      Stream.socketMessageHandler self (.obj p) = .ok (some ⟨Obj.get p "e", .obj p⟩))
    ∧ ((Obj.get p "e").truthy = false → (Obj.get p "u").truthy = true →
      Stream.socketMessageHandler self (.obj p) = .ok (some ⟨.str "bookTicker", .obj p⟩))
    ∧ ((Obj.get p "e").truthy = false → (Obj.get p "u").truthy = false →
      (Obj.get p "lastUpdateId").truthy = true →
      Stream.socketMessageHandler self (.obj p) = .ok (some ⟨.str "depth", .obj p⟩))
    ∧ ((Obj.get p "e").truthy = false → (Obj.get p "u").truthy = false →
      (Obj.get p "lastUpdateId").truthy = false →
      Stream.socketMessageHandler self (.obj p) = .ok none)
    ∧ ("e" ∉ Obj.keys p → (Obj.get p "u").truthy = true →
      Stream.socketMessageHandler self (.obj p) = .ok (some ⟨.str "bookTicker", .obj p⟩))
    ∧ ("e" ∉ Obj.keys p → "u" ∉ Obj.keys p → (Obj.get p "lastUpdateId").truthy = true →
      Stream.socketMessageHandler self (.obj p) = .ok (some ⟨.str "depth", .obj p⟩)) := by
  have h3 : (Obj.get p "e").truthy = false → (Obj.get p "u").truthy = true →
      Stream.socketMessageHandler self (.obj p)
        = .ok (some ⟨.str "bookTicker", .obj p⟩) := by
    intro he hu
    simp [Stream.socketMessageHandler, getProp, looseEqStr_executionReport_of_falsy he, he, hu]
  have h4 : (Obj.get p "e").truthy = false → (Obj.get p "u").truthy = false →
      (Obj.get p "lastUpdateId").truthy = true →
      Stream.socketMessageHandler self (.obj p) = .ok (some ⟨.str "depth", .obj p⟩) := by
    intro he hu hl
    simp [Stream.socketMessageHandler, getProp, looseEqStr_executionReport_of_falsy he, he, hu,
      hl]
  refine ⟨?_, ?_, ?_, h3, h4, ?_, ?_, ?_⟩
  · intro h
    simp [Stream.socketMessageHandler, getProp, h]
  · intro s hs h1 h2
    simp [Stream.socketMessageHandler, getProp, hs, looseEqStr, JSVal.truthy, h1, h2]
  · intro h1 h2
    simp [Stream.socketMessageHandler, getProp, h1, h2]
  · intro he hu hl
    simp [Stream.socketMessageHandler, getProp, looseEqStr_executionReport_of_falsy he, he, hu,
      hl]
  · intro he hu
    exact h3 (by rw [Obj.get_of_not_mem he]; rfl) hu
  · intro he hu hl
    exact h4 (by rw [Obj.get_of_not_mem he]; rfl) (by rw [Obj.get_of_not_mem hu]; rfl) hl

/-- C5 as amended, at the payloads `{u: 123}` and `{lastUpdateId: 55}`. -/
theorem socketMessageHandler_rules_witness :
    Stream.socketMessageHandler (Stream.new "btcusd" "key") (.obj [("u", .num 123)])
        = .ok (some ⟨.str "bookTicker", .obj [("u", .num 123)]⟩)
    ∧ Stream.socketMessageHandler (Stream.new "btcusd" "key") (.obj [("lastUpdateId", .num 55)])
        = .ok (some ⟨.str "depth", .obj [("lastUpdateId", .num 55)]⟩) :=
  ⟨(socketMessageHandler_rules (Stream.new "btcusd" "key") [("u", .num 123)]).2.2.2.1 rfl rfl,
   (socketMessageHandler_rules (Stream.new "btcusd" "key")
      [("lastUpdateId", .num 55)]).2.2.2.2.1 rfl rfl rfl⟩

/-- C6, the claim as stated fails: the symbol of the payload is compared as it is with
the upper-case form of the stream's symbol.  On a stream bound to `btcusd` the
report `{e: "executionReport", s: "btcusd", S: "BUY", X: "FILLED"}`, whose symbol
equals the stream's up to letter case, emits nothing. -/
theorem orderUpdateHandler_case_counterexample :
    toLowerCase "btcusd" = toLowerCase "btcusd"
    ∧ Stream.orderUpdateHandler (Stream.new "btcusd" "key")
        (.obj [("e", .str "executionReport"), ("s", .str "btcusd"), ("S", .str "BUY"),
          ("X", .str "FILLED")]) = .ok none
    ∧ Stream.socketMessageHandler (Stream.new "btcusd" "key")
        (.obj [("e", .str "executionReport"), ("s", .str "btcusd"), ("S", .str "BUY"),
          ("X", .str "FILLED")]) = .ok none :=
  ⟨rfl, rfl, rfl⟩

theorem char_toNat_ofNat (n : Nat) (h : n < 0xD800) : (Char.ofNat n).toNat = n := by
  have hv : n.isValidChar := Or.inl h
  unfold Char.ofNat
  rw [dif_pos hv]
  simp only [Char.ofNatAux, Char.toNat]
  show (UInt32.ofNat' n _).toNat = n
  rfl

theorem lower_upper_lower (c : Char) :
    (fun c : Char => if 65 ≤ c.toNat ∧ c.toNat ≤ 90 then Char.ofNat (c.toNat + 32) else c)
      ((fun c : Char => if 97 ≤ c.toNat ∧ c.toNat ≤ 122 then Char.ofNat (c.toNat - 32) else c)
        ((fun c : Char =>
          if 65 ≤ c.toNat ∧ c.toNat ≤ 90 then Char.ofNat (c.toNat + 32) else c) c))
      = (fun c : Char =>
          if 65 ≤ c.toNat ∧ c.toNat ≤ 90 then Char.ofNat (c.toNat + 32) else c) c := by
  simp only
  by_cases h1 : 65 ≤ c.toNat ∧ c.toNat ≤ 90
  · have e1 : (Char.ofNat (c.toNat + 32)).toNat = c.toNat + 32 :=
      char_toNat_ofNat _ (by omega)
    have h2 : 97 ≤ c.toNat + 32 ∧ c.toNat + 32 ≤ 122 := by omega
    simp only [h1, and_self, if_true, e1, h2, Nat.add_sub_cancel, Char.ofNat_toNat]
  · by_cases h2 : 97 ≤ c.toNat ∧ c.toNat ≤ 122
    · have e1 : (Char.ofNat (c.toNat - 32)).toNat = c.toNat - 32 :=
        char_toNat_ofNat _ (by omega)
      have h3 : 65 ≤ c.toNat - 32 ∧ c.toNat - 32 ≤ 90 := by omega
      have h4 : c.toNat - 32 + 32 = c.toNat := by omega
      simp only [h1, if_false, h2, and_self, if_true, e1, h3, h4, Char.ofNat_toNat]
    · simp only [h1, if_false, h2]

/-- Lower-casing the upper-case form of a lower-cased string gives the lower-cased
string again. -/
theorem toLowerCase_toUpperCase_toLowerCase (s : String) :
    toLowerCase (toUpperCase (toLowerCase s)) = toLowerCase s := by
  unfold toLowerCase toUpperCase
  simp only [String.toList, List.map_map]
  congr 1
  apply List.map_congr_left
  intro c _
  exact lower_upper_lower c

/-- C6 as amended: for a stream constructed with a symbol `sym` of ASCII characters
and a report whose symbol `p.s` is a string, nothing is emitted when `p.s`
differs from `sym` under case-insensitive comparison, and nothing is emitted
either unless `p.s` is exactly the upper-case form of the stream's stored
(lower-cased) symbol; when it is and the status `p.X` is a string, exactly one
event is emitted, carrying the report, named `"BID_" + p.X` when `p.S` is `"BUY"`
and `"ASK_" + p.X` when `p.S` is `"SELL"`; nothing is emitted when `p.S` is another
string. -/
theorem orderUpdateHandler_spec (sym apiKey : String) (p : Obj) (s : String)
    (_hascii : isASCII sym = true) (hs : Obj.get p "s" = .str s) :
    (toLowerCase s ≠ toLowerCase sym →
      Stream.orderUpdateHandler (Stream.new sym apiKey) (.obj p) = .ok none)
    ∧ (s ≠ toUpperCase (toLowerCase sym) →
      Stream.orderUpdateHandler (Stream.new sym apiKey) (.obj p) = .ok none)
    ∧ (s = toUpperCase (toLowerCase sym) →
      (∀ x, Obj.get p "X" = .str x → Obj.get p "S" = .str "BUY" →
        Stream.orderUpdateHandler (Stream.new sym apiKey) (.obj p)
          = .ok (some ⟨.str ("BID_" ++ x), .obj p⟩))
      ∧ (∀ x, Obj.get p "X" = .str x → Obj.get p "S" = .str "SELL" →
        Stream.orderUpdateHandler (Stream.new sym apiKey) (.obj p)
          = .ok (some ⟨.str ("ASK_" ++ x), .obj p⟩))
      ∧ (∀ t, Obj.get p "S" = .str t → t ≠ "BUY" → t ≠ "SELL" →
        Stream.orderUpdateHandler (Stream.new sym apiKey) (.obj p) = .ok none)) := by
  have hne : s ≠ toUpperCase (toLowerCase sym) →
      Stream.orderUpdateHandler (Stream.new sym apiKey) (.obj p) = .ok none := by
    intro h
    simp [Stream.orderUpdateHandler, getProp, hs, looseEqStr, Stream.new, h]
  refine ⟨?_, hne, ?_⟩
  · intro h
    apply hne
    intro e
    apply h
    rw [e, toLowerCase_toUpperCase_toLowerCase]
  · intro h
    refine ⟨?_, ?_, ?_⟩
    · intro x hx hS
      simp [Stream.orderUpdateHandler, getProp, hs, looseEqStr, Stream.new, h, hS, hx,
        JSVal.toStr]
    · intro x hx hS
      simp [Stream.orderUpdateHandler, getProp, hs, looseEqStr, Stream.new, h, hS, hx,
        JSVal.toStr]
    · intro t hS h1 h2
      simp [Stream.orderUpdateHandler, getProp, hs, looseEqStr, Stream.new, h, hS, h1, h2]

/-- C6 as amended, at `{e: "executionReport", s: "BTCUSD", S: "BUY", X: "FILLED"}`: it fires
`BID_FILLED` on a stream bound to `btcusd` and nothing on a stream bound to
`ethusd`. -/
theorem orderUpdateHandler_spec_witness :
    isASCII "btcusd" = true ∧ isASCII "ethusd" = true
    ∧ Obj.get [("e", .str "executionReport"), ("s", .str "BTCUSD"), ("S", .str "BUY"),
        ("X", .str "FILLED")] "s" = .str "BTCUSD"
    ∧ Stream.orderUpdateHandler (Stream.new "btcusd" "key")
        (.obj [("e", .str "executionReport"), ("s", .str "BTCUSD"), ("S", .str "BUY"),
          ("X", .str "FILLED")])
        = .ok (some ⟨.str "BID_FILLED",
            .obj [("e", .str "executionReport"), ("s", .str "BTCUSD"), ("S", .str "BUY"),
              ("X", .str "FILLED")]⟩)
    ∧ Stream.orderUpdateHandler (Stream.new "ethusd" "key")
        (.obj [("e", .str "executionReport"), ("s", .str "BTCUSD"), ("S", .str "BUY"),
          ("X", .str "FILLED")]) = .ok none :=
  ⟨by decide, by decide, rfl,
   ((orderUpdateHandler_spec "btcusd" "key"
      [("e", .str "executionReport"), ("s", .str "BTCUSD"), ("S", .str "BUY"),
        ("X", .str "FILLED")] "BTCUSD" (by decide) rfl).2.2 (by decide)).1 "FILLED" rfl rfl,
   (orderUpdateHandler_spec "ethusd" "key"
      [("e", .str "executionReport"), ("s", .str "BTCUSD"), ("S", .str "BUY"),
        ("X", .str "FILLED")] "BTCUSD" (by decide) rfl).1 (by decide)⟩

/-! ## `EventEmitter` -/

/-- Keys under which `this.events[event]` finds a member of `Object.prototype`. -/
theorem EventEmitter.lookup_inherited (k : String) (hk : k ∈ objectPrototypeKeys) :
    EventEmitter.lookup EventEmitter.new k = .inherited := by
  simp [EventEmitter.lookup, EventEmitter.new, EventEmitter.own, hk]

/-- C7, the code at the failing input: on a fresh emitter, with no handler registered,
`emit("constructor", d)` finds the inherited `Object.prototype.constructor`, passes
the guard and throws a `TypeError` at the `for ... of`; `on("constructor", h)`
throws at `push`.  The same happens on a stream when a payload `{e: "constructor"}`
arrives. -/
theorem emit_inherited_key_throws (beh : Behaviour) (d : JSVal) (h : Listener)
    (sym apiKey : String) :
    (EventEmitter.new.emit beh (.str "constructor") d).outcome
        = .error (.typeError "this.events[event] is not iterable")
    ∧ (EventEmitter.new.emit beh (.str "constructor") d).calls = []
    ∧ EventEmitter.new.«on» (.str "constructor") h
        = .error (.typeError "this.events[event].push is not a function")
    ∧ (Stream.onMessage (Stream.new sym apiKey) beh
          (.ok (.obj [("e", .str "constructor")]))).1.outcome
        = .error (.typeError "this.events[event] is not iterable") :=
  ⟨rfl, rfl, rfl, rfl⟩

theorem EventEmitter.own_append (t : List (String × List Listener)) (k : String)
    (ls : List Listener) (k' : String) (h : EventEmitter.own t k = none) :
    EventEmitter.own (t ++ [(k, ls)]) k'
      = if k = k' then (if EventEmitter.own t k' = none then some ls else EventEmitter.own t k')
        else EventEmitter.own t k' := by
  induction t with
  | nil => simp [EventEmitter.own]
  | cons p r ih =>
    obtain ⟨k0, l0⟩ := p
    by_cases h0 : k0 = k
    · simp [EventEmitter.own, h0] at h
    · simp only [EventEmitter.own, h0, if_false] at h
      by_cases h1 : k0 = k'
      · have : ¬ k = k' := fun e => h0 (h1.trans e.symm)
        simp [EventEmitter.own, h1, this]
      · simp only [List.cons_append, EventEmitter.own, h1, if_false]
        exact ih h

theorem EventEmitter.own_push (t : List (String × List Listener)) (k : String)
    (l : Listener) (k' : String) :
    EventEmitter.own (EventEmitter.push t k l) k'
      = if k = k' then (EventEmitter.own t k').map (· ++ [l]) else EventEmitter.own t k' := by
  induction t with
  | nil => simp [EventEmitter.push, EventEmitter.own]
  | cons p r ih =>
    obtain ⟨k0, l0⟩ := p
    by_cases h0 : k0 = k
    · subst h0
      by_cases h1 : k0 = k' <;> simp [EventEmitter.push, EventEmitter.own, h1]
    · by_cases h1 : k0 = k'
      · have h2 : ¬ k = k' := fun e => h0 (h1.trans e.symm)
        have h3 : ¬ k' = k := fun e => h2 e.symm
        simp [EventEmitter.push, EventEmitter.own, h1, h2, h3]
      · simp [EventEmitter.push, EventEmitter.own, h0, h1, ih]

/-- Under a key that `Object.prototype` does not define, `on` never throws and appends
the listener to the listeners of that key only. -/
theorem EventEmitter.on_registered (self : EventEmitter) (event : JSVal) (l : Listener)
    (hk : event.toStr ∉ objectPrototypeKeys) :
    ∃ e, self.«on» event l = .ok e ∧
      ∀ k', e.registered k'
        = if event.toStr = k' then self.registered k' ++ [l] else self.registered k' := by
  cases hown : EventEmitter.own self.events event.toStr with
  | none =>
    refine ⟨⟨self.events ++ [(event.toStr, [l])]⟩, ?_, ?_⟩
    · simp [EventEmitter.«on», EventEmitter.lookup, hown, hk]
    · intro k'
      simp only [EventEmitter.registered, EventEmitter.own_append _ _ _ _ hown]
      by_cases e : event.toStr = k'
      · subst e; simp [hown]
      · simp [e]
  | some ls =>
    refine ⟨⟨EventEmitter.push self.events event.toStr l⟩, ?_, ?_⟩
    · simp [EventEmitter.«on», EventEmitter.lookup, hown]
    · intro k'
      simp only [EventEmitter.registered, EventEmitter.own_push]
      by_cases e : event.toStr = k'
      · subst e; simp [hown]
      · simp [e]

/-- A sequence of `on` calls under keys that `Object.prototype` does not define never
throws; afterwards the listeners of a key are those it had, followed by the
listeners registered under it, in the order of the calls. -/
theorem EventEmitter.onAll_registered (regs : List (JSVal × Listener)) :
    ∀ self : EventEmitter, (∀ r ∈ regs, r.1.toStr ∉ objectPrototypeKeys) →
      ∃ e, self.onAll regs = .ok e ∧
        ∀ k', e.registered k'
          = self.registered k' ++ (regs.filter fun r => r.1.toStr = k').map Prod.snd := by
  induction regs with
  | nil => intro self _; exact ⟨self, rfl, by simp⟩
  | cons r rs ih =>
    intro self h
    obtain ⟨k, l⟩ := r
    obtain ⟨e1, h1, h1'⟩ := EventEmitter.on_registered self k l
      (h (k, l) (List.mem_cons_self _ _))
    obtain ⟨e2, h2, h2'⟩ := ih e1 (fun r hr => h r (List.mem_cons_of_mem _ hr))
    refine ⟨e2, ?_, ?_⟩
    · simp only [EventEmitter.onAll, h1]; exact h2
    · intro k'
      rw [h2', h1']
      by_cases e : k.toStr = k' <;> simp [List.filter_cons, e]

theorem EventEmitter.callAll_ok (beh : Behaviour) (d : JSVal) (ls : List Listener)
    (h : ∀ l ∈ ls, beh l d = .ok ()) :
    EventEmitter.callAll beh d ls = (ls.map fun l => (l, d), .ok ()) := by
  induction ls with
  | nil => rfl
  | cons l r ih =>
    have hl := h l (List.mem_cons_self _ _)
    have hr := ih (fun x hx => h x (List.mem_cons_of_mem _ hx))
    simp [EventEmitter.callAll, hl, hr]

theorem EventEmitter.callAll_throw (beh : Behaviour) (d : JSVal) (pre : List Listener)
    (h : Listener) (post : List Listener) (err : JSError)
    (hpre : ∀ l ∈ pre, beh l d = .ok ()) (hh : beh h d = .error err) :
    EventEmitter.callAll beh d (pre ++ h :: post)
      = ((pre ++ [h]).map fun l => (l, d), .error err) := by
  induction pre with
  | nil => simp [EventEmitter.callAll, hh]
  | cons l r ih =>
    have hl := hpre l (List.mem_cons_self _ _)
    have hr := ih (fun x hx => hpre x (List.mem_cons_of_mem _ hx))
    simp [EventEmitter.callAll, hl, hr]

/-- Under keys that `Object.prototype` does not define and with listeners that return,
`emit(k, d)` calls exactly the listeners registered under `k`, each once with `d`,
in the order of registration, and returns; with none registered it calls
nothing. -/
theorem EventEmitter.emit_registered (regs : List (JSVal × Listener)) (beh : Behaviour)
    (k d : JSVal) (hregs : ∀ r ∈ regs, r.1.toStr ∉ objectPrototypeKeys)
    (hk : k.toStr ∉ objectPrototypeKeys) (hbeh : ∀ l, beh l d = .ok ()) :
    ∃ e, EventEmitter.new.onAll regs = .ok e
      ∧ (e.emit beh k d).calls
          = ((regs.filter fun r => r.1.toStr = k.toStr).map fun r => (r.2, d))
      ∧ (e.emit beh k d).outcome = .ok () := by
  obtain ⟨e, he, hreg⟩ := EventEmitter.onAll_registered regs EventEmitter.new hregs
  refine ⟨e, he, ?_⟩
  have hr := hreg k.toStr
  simp only [EventEmitter.registered, EventEmitter.new, EventEmitter.own, Option.getD_none,
    List.nil_append] at hr
  have hcalls : ((regs.filter fun r => r.1.toStr = k.toStr).map fun r => (r.2, d))
      = ((regs.filter fun r => r.1.toStr = k.toStr).map Prod.snd).map fun l => (l, d) := by
    simp [List.map_map, Function.comp_def]
  rw [hcalls]
  cases hown : EventEmitter.own e.events k.toStr with
  | none =>
    rw [hown] at hr
    simp only [Option.getD_none] at hr
    rw [← hr]
    simp [EventEmitter.emit, EventEmitter.lookup, hown, hk]
  | some ls =>
    rw [hown] at hr
    simp only [Option.getD_some] at hr
    rw [← hr]
    simp [EventEmitter.emit, EventEmitter.lookup, hown,
      EventEmitter.callAll_ok beh d ls (fun l _ => hbeh l)]

/-- C8, the claim as stated fails: with two listeners under `trade` of which the first
throws, `emit` calls the first only and ends with the thrown value. -/
theorem emit_throw_counterexample :
    EventEmitter.new.onAll [(.str "trade", 1), (.str "trade", 2)]
        = .ok ⟨[("trade", [1, 2])]⟩
    ∧ ((⟨[("trade", [1, 2])]⟩ : EventEmitter).emit
          (fun l _ => if l = 1 then .error (.thrown "boom") else .ok ())
          (.str "trade") (.num 7)).calls = [(1, .num 7)]
    ∧ ((⟨[("trade", [1, 2])]⟩ : EventEmitter).emit
          (fun l _ => if l = 1 then .error (.thrown "boom") else .ok ())
          (.str "trade") (.num 7)).outcome = .error (.thrown "boom") :=
  ⟨rfl, rfl, rfl⟩

/-- C8 as amended: when the listeners of a key are `pre ++ h :: post`, those of `pre`
return and `h` throws, `emit` calls the listeners of `pre` and then `h`, each with
the payload, calls no listener of `post`, and ends with the value `h` threw. -/
theorem emit_stops_at_throw (self : EventEmitter) (beh : Behaviour) (k d : JSVal)
    (pre : List Listener) (h : Listener) (post : List Listener) (err : JSError)
    (hown : EventEmitter.own self.events k.toStr = some (pre ++ h :: post))
    (hpre : ∀ l ∈ pre, beh l d = .ok ()) (hh : beh h d = .error err) :
    (self.emit beh k d).calls = (pre ++ [h]).map (fun l => (l, d))
    ∧ (self.emit beh k d).calls.length = pre.length + 1
    ∧ (self.emit beh k d).outcome = .error err := by
  have hc := EventEmitter.callAll_throw beh d pre h post err hpre hh
  refine ⟨?_, ?_, ?_⟩
  · simp [EventEmitter.emit, EventEmitter.lookup, hown, hc]
  · simp [EventEmitter.emit, EventEmitter.lookup, hown, hc]
  · simp [EventEmitter.emit, EventEmitter.lookup, hown, hc]

/-- C8 as amended, at three listeners of which the second throws. -/
theorem emit_stops_at_throw_witness :
    EventEmitter.own (⟨[("trade", [1, 2, 3])]⟩ : EventEmitter).events (JSVal.str "trade").toStr
        = some ([1] ++ 2 :: [3])
    ∧ ((⟨[("trade", [1, 2, 3])]⟩ : EventEmitter).emit
          (fun l _ => if l = 2 then .error (.thrown "boom") else .ok ())
          (.str "trade") (.num 7)).calls = [(1, .num 7), (2, .num 7)]
    ∧ ((⟨[("trade", [1, 2, 3])]⟩ : EventEmitter).emit
          (fun l _ => if l = 2 then .error (.thrown "boom") else .ok ())
          (.str "trade") (.num 7)).outcome = .error (.thrown "boom") :=
  ⟨rfl,
   (emit_stops_at_throw ⟨[("trade", [1, 2, 3])]⟩
      (fun l _ => if l = 2 then .error (.thrown "boom") else .ok ())
      (.str "trade") (.num 7) [1] 2 [3] (.thrown "boom") rfl
      (by intro l hl; simp at hl; subst hl; rfl) rfl).1,
   (emit_stops_at_throw ⟨[("trade", [1, 2, 3])]⟩
      (fun l _ => if l = 2 then .error (.thrown "boom") else .ok ())
      (.str "trade") (.num 7) [1] 2 [3] (.thrown "boom") rfl
      (by intro l hl; simp at hl; subst hl; rfl) rfl).2.2⟩

/-! ## Inbound frames that do not parse -/

/-- C9, the claim as stated fails: when `JSON.parse` throws, the `message` listener of the
request socket and that of the data stream end with the thrown `SyntaxError`,
which goes to the transport that called them. -/
theorem onMessage_unparseable_counterexample :
    (Socket.onMessage (Socket.new "key" "secret").connect (fun _ _ => .ok ())
        (.error (.syntaxError "Unexpected token"))).1.outcome
      = .error (.syntaxError "Unexpected token")
    ∧ (Stream.onMessage ((Stream.new "btcusd" "key").connect "listenKey") (fun _ _ => .ok ())
        (.error (.syntaxError "Unexpected token"))).1.outcome
      = .error (.syntaxError "Unexpected token") :=
  ⟨rfl, rfl⟩

/-- C9 as amended: for a frame on which `JSON.parse` throws, the `message` listener of
`Socket` and that of `Stream` end with the thrown error, make no `emit` call, call
no listener and leave the object as it was; for a frame that parses to an object
`f`, the listener of `Socket` performs exactly `emit(f.id, f)`. -/
theorem onMessage_spec (sock : Socket) (strm : Stream) (beh : Behaviour) (err : JSError)
    (f : Obj) :
    Socket.onMessage sock beh (.error err) = (⟨[], [], .error err⟩, sock)
    ∧ Stream.onMessage strm beh (.error err) = (⟨[], [], .error err⟩, strm)
    ∧ Socket.onMessage sock beh (.ok (.obj f))
        = (sock.events.emit beh (Obj.get f "id") (.obj f), sock)
    ∧ (Socket.onMessage sock beh (.ok (.obj f))).1.emitted = [⟨Obj.get f "id", .obj f⟩] := by
  refine ⟨rfl, rfl, rfl, ?_⟩
  simp only [Socket.onMessage, Socket.socketMessageHandler, getProp, EventEmitter.emit]
  cases EventEmitter.lookup sock.events (Obj.get f "id").toStr <;> rfl

/-! ## Connection timers -/

theorem Socket.step_after_open (s : Socket) (ws : WS) (hs : s.socket = some ws)
    (ht : s.timers = [Socket.pingTimer]) (ev : ConnEvent) (hev : ev ≠ .open) :
    ∃ s' ws', Socket.step s ev = .ok s' ∧ s'.socket = some ws'
      ∧ s'.timers = [Socket.pingTimer]
      ∧ ws'.sendCalls = ws.sendCalls ++ List.replicate ([ev].count .tick) Socket.pingFrame := by
  cases ev with
  | «open» => exact absurd rfl hev
  | tick =>
    refine ⟨{ s with socket := some { ws with sendCalls := ws.sendCalls ++ [Socket.pingFrame] } },
      { ws with sendCalls := ws.sendCalls ++ [Socket.pingFrame] }, ?_, rfl, ht, rfl⟩
    simp only [Socket.step, hs, ht, Option.map_some', Socket.fire, Socket.pingTimer,
      Socket.sendPing, Socket.sendMessage, Socket.send]
    rfl
  | close =>
    refine ⟨{ s with socket := some { ws with readyState := .closed } },
      { ws with readyState := .closed }, ?_, rfl, ht, by simp⟩
    simp only [Socket.step, hs, Option.map_some']
    rfl
  | error =>
    refine ⟨{ s with socket := some ws }, ws, ?_, rfl, ht, by simp⟩
    simp only [Socket.step, hs, Option.map_some']
    rfl

theorem Socket.run_after_open (evs : List ConnEvent) :
    ∀ (s : Socket) (ws : WS), s.socket = some ws → s.timers = [Socket.pingTimer] →
      (∀ e ∈ evs, e ≠ .open) →
      ∃ s' ws', Socket.run s evs = .ok s' ∧ s'.socket = some ws'
        ∧ s'.timers = [Socket.pingTimer]
        ∧ ws'.sendCalls
            = ws.sendCalls ++ List.replicate (evs.count .tick) Socket.pingFrame := by
  induction evs with
  | nil => intro s ws hs ht _; exact ⟨s, ws, rfl, hs, ht, by simp⟩
  | cons ev evs ih =>
    intro s ws hs ht h
    obtain ⟨s1, ws1, h1, hs1, ht1, hc1⟩ :=
      Socket.step_after_open s ws hs ht ev (h ev (List.mem_cons_self _ _))
    obtain ⟨s2, ws2, h2, hs2, ht2, hc2⟩ :=
      ih s1 ws1 hs1 ht1 (fun e he => h e (List.mem_cons_of_mem _ he))
    refine ⟨s2, ws2, ?_, hs2, ht2, ?_⟩
    · simp only [Socket.run, h1]; exact h2
    · rw [hc2, hc1, List.append_assoc, ← List.replicate_add]
      congr 2
      simp only [List.count_cons, List.count_nil]
      omega

theorem Stream.step_timers (s : Stream) (a : String) (ht : s.timers = [Stream.renewTimer a])
    (ev : ConnEvent) :
    (Stream.step s ev).timers = [Stream.renewTimer a]
    ∧ (Stream.step s ev).requests
        = s.requests ++ List.replicate ([ev].count .tick) (Stream.listenKeyRequest a) := by
  cases ev <;> simp [Stream.step, ht, Stream.fireTimer, Stream.renewTimer]

theorem Stream.run_timers (evs : List ConnEvent) :
    ∀ (s : Stream) (a : String), s.timers = [Stream.renewTimer a] →
      (Stream.run s evs).timers = [Stream.renewTimer a]
      ∧ (Stream.run s evs).requests
          = s.requests ++ List.replicate (evs.count .tick) (Stream.listenKeyRequest a) := by
  induction evs with
  | nil => intro s a ht; exact ⟨ht, by simp [Stream.run]⟩
  | cons ev evs ih =>
    intro s a ht
    obtain ⟨h1, h2⟩ := Stream.step_timers s a ht ev
    obtain ⟨h3, h4⟩ := ih (Stream.step s ev) a h1
    refine ⟨h3, ?_⟩
    show (Stream.run (Stream.step s ev) evs).requests = _
    rw [h4, h2, List.append_assoc, ← List.replicate_add]
    congr 2
    simp only [List.count_cons, List.count_nil]
    omega

/-- C10, the claim as stated fails: after `open`, `close` and one more period, the ping
interval of a socket is still armed and a second ping has been handed to `send`
(one was after `open`, `close` added none); on a stream the renewal interval is
still armed after `close` and the next period makes another listen-key
request. -/
theorem timers_after_close_counterexample :
    ((Socket.run (Socket.new "key" "secret").connect [.open, .close]).toOption.map
        fun s => (s.timers.length, s.sentFrames.length, s.socket.map (·.readyState)))
      = some (1, 1, some .closed)
    ∧ ((Socket.run (Socket.new "key" "secret").connect [.open, .close, .tick]).toOption.map
        fun s => (s.timers.length, s.sentFrames.length, s.socket.map (·.readyState)))
      = some (1, 2, some .closed)
    ∧ ((Stream.run ((Stream.new "btcusd" "key").connect "listenKey")
          [.open, .close]).timers.length,
        (Stream.run ((Stream.new "btcusd" "key").connect "listenKey")
          [.open, .close]).requests.length) = (1, 1)
    ∧ ((Stream.run ((Stream.new "btcusd" "key").connect "listenKey")
          [.open, .close, .tick]).timers.length,
        (Stream.run ((Stream.new "btcusd" "key").connect "listenKey")
          [.open, .close, .tick]).requests.length) = (1, 2) :=
  ⟨by decide, by decide, by decide, by decide⟩

theorem Socket.sendPing_ok (s : Socket) (ws : WS) (hs : s.socket = some ws) :
    Socket.sendPing s
      = .ok { s with socket := some { ws with
          sendCalls := ws.sendCalls ++ [Socket.pingFrame] } } := by
  simp only [Socket.sendPing, Socket.sendMessage, Socket.send, hs]
  rfl

theorem Socket.fire_replicate (n : Nat) :
    ∀ (s : Socket) (ws : WS), s.socket = some ws →
      ∃ s' ws', Socket.fire s (List.replicate n Socket.pingTimer) = .ok s'
        ∧ s'.socket = some ws' ∧ s'.timers = s.timers := by
  induction n with
  | zero => intro s ws hs; exact ⟨s, ws, rfl, hs, rfl⟩
  | succ n ih =>
    intro s ws hs
    obtain ⟨s', ws', h1, h2, h3⟩ := ih
      { s with socket := some { ws with sendCalls := ws.sendCalls ++ [Socket.pingFrame] } }
      { ws with sendCalls := ws.sendCalls ++ [Socket.pingFrame] } rfl
    refine ⟨s', ws', ?_, h2, h3⟩
    simp only [List.replicate_succ, Socket.fire, Socket.pingTimer,
      Socket.sendPing_ok s ws hs]
    exact h1

theorem Socket.step_armed (s : Socket) (ws : WS) (n : Nat) (hs : s.socket = some ws)
    (ht : s.timers = List.replicate n Socket.pingTimer) (ev : ConnEvent) :
    ∃ s' ws', Socket.step s ev = .ok s' ∧ s'.socket = some ws'
      ∧ s'.timers = List.replicate (n + [ev].count .open) Socket.pingTimer := by
  cases ev with
  | «open» =>
    refine ⟨{ s with
        socket := some { Socket.transport ws .open with
          sendCalls := (Socket.transport ws .open).sendCalls ++ [Socket.pingFrame] }
        timers := s.timers ++ [Socket.pingTimer] },
      { Socket.transport ws .open with
        sendCalls := (Socket.transport ws .open).sendCalls ++ [Socket.pingFrame] },
      ?_, rfl, ?_⟩
    · simp only [Socket.step, hs, Option.map_some']
      rw [Socket.sendPing_ok _ (Socket.transport ws .open) rfl]
    · simp [ht, List.replicate_add]
  | tick =>
    obtain ⟨s', ws', h1, h2, h3⟩ := Socket.fire_replicate n
      { s with socket := some (Socket.transport ws .tick) } (Socket.transport ws .tick) rfl
    refine ⟨s', ws', ?_, h2, ?_⟩
    · rw [← ht] at h1
      simp only [Socket.step, hs, Option.map_some']
      exact h1
    · simpa [ht] using h3
  | close =>
    refine ⟨{ s with socket := some (Socket.transport ws .close) },
      Socket.transport ws .close, ?_, rfl, ?_⟩
    · simp only [Socket.step, hs, Option.map_some']
    · simpa using ht
  | error =>
    refine ⟨{ s with socket := some (Socket.transport ws .error) },
      Socket.transport ws .error, ?_, rfl, ?_⟩
    · simp only [Socket.step, hs, Option.map_some']
    · simpa using ht

theorem Socket.run_armed (evs : List ConnEvent) :
    ∀ (s : Socket) (ws : WS) (n : Nat), s.socket = some ws →
      s.timers = List.replicate n Socket.pingTimer →
      ∃ s' ws', Socket.run s evs = .ok s' ∧ s'.socket = some ws'
        ∧ s'.timers = List.replicate (n + evs.count .open) Socket.pingTimer := by
  induction evs with
  | nil => intro s ws n hs ht; exact ⟨s, ws, rfl, hs, by simpa using ht⟩
  | cons ev evs ih =>
    intro s ws n hs ht
    obtain ⟨s1, ws1, h1, hs1, ht1⟩ := Socket.step_armed s ws n hs ht ev
    obtain ⟨s2, ws2, h2, hs2, ht2⟩ := ih s1 ws1 _ hs1 ht1
    refine ⟨s2, ws2, ?_, hs2, ?_⟩
    · simp only [Socket.run, h1]; exact h2
    · rw [ht2]
      congr 1
      simp only [List.count_cons, List.count_nil]
      omega

/-- C10 as amended: after `Socket.connect` reaches `open`, one ping is sent at once and
one on each three-minute tick, through every later `close` and `error`: no event
clears the interval, so after any events `evs` that follow `open` the ping
interval is still armed and the pings handed to `send` number one plus the ticks
so far; over any sequence of events `aevs` at all, the intervals armed number
the `open` events in it.  Likewise after `Stream.connect` the 30-minute renewal
interval stays armed through every sequence of events `sevs` (with `open`,
`close`, `error` and ticks in any order) and each tick makes one more listen-key
request. -/
theorem timers_never_cleared (sock : Socket) (strm : Stream) (key : String)
    (evs aevs sevs : List ConnEvent) (hsock : sock.timers = []) (hstrm : strm.timers = [])
    (hevs : ∀ e ∈ evs, e ≠ .open) :
    (∃ s, Socket.run sock.connect (.open :: evs) = .ok s
      ∧ s.timers = [Socket.pingTimer]
      ∧ s.sentFrames = List.replicate (1 + evs.count .tick) Socket.pingFrame)
    ∧ (∃ s, Socket.run sock.connect aevs = .ok s
      ∧ s.timers = List.replicate (aevs.count .open) Socket.pingTimer)
    ∧ (Stream.run (strm.connect key) sevs).timers = [Stream.renewTimer strm.apiKey]
    ∧ (Stream.run (strm.connect key) sevs).requests
        = strm.requests
          ++ List.replicate (1 + sevs.count .tick) (Stream.listenKeyRequest strm.apiKey) := by
  refine ⟨?_, ?_, ?_⟩
  · obtain ⟨s', ws', h1, h2, h3, h4⟩ := Socket.run_after_open evs
      { sock.connect with
        socket := some ⟨Socket.websocketURL, .open, [Socket.pingFrame]⟩
        timers := [Socket.pingTimer] }
      ⟨Socket.websocketURL, .open, [Socket.pingFrame]⟩ rfl rfl hevs
    refine ⟨s', ?_, h3, ?_⟩
    · rw [← h1]
      simp only [Socket.run, Socket.step, Socket.connect, Option.map_some', Socket.sendPing,
        Socket.sendMessage, Socket.send, hsock]
      rfl
    · simp only [Socket.sentFrames, h2, h4]
      rw [List.replicate_add]
      rfl
  · obtain ⟨s', ws', h1, _, h3⟩ := Socket.run_armed aevs sock.connect
      ⟨Socket.websocketURL, .connecting, []⟩ 0 rfl (by simp [Socket.connect, hsock])
    exact ⟨s', h1, by simpa using h3⟩
  · have ht : (strm.connect key).timers = [Stream.renewTimer strm.apiKey] := by
      simp [Stream.connect, hstrm]
    obtain ⟨h1, h2⟩ := Stream.run_timers sevs (strm.connect key) strm.apiKey ht
    refine ⟨h1, ?_⟩
    rw [h2, List.replicate_add]
    simp [Stream.connect]

/-- C10 as amended, at the events `open`, `close`, `tick` of a stream and `close`, `tick`
after the `open` of a socket. -/
theorem timers_never_cleared_witness :
    (Socket.new "key" "secret").timers = [] ∧ (Stream.new "btcusd" "key").timers = []
    ∧ (∀ e ∈ [ConnEvent.close, ConnEvent.tick], e ≠ ConnEvent.open)
    ∧ (Stream.run ((Stream.new "btcusd" "key").connect "listenKey")
        [.open, .close, .tick]).timers = [Stream.renewTimer (Stream.new "btcusd" "key").apiKey]
    ∧ (Stream.run ((Stream.new "btcusd" "key").connect "listenKey")
        [.open, .close, .tick]).requests
        = (Stream.new "btcusd" "key").requests
          ++ List.replicate (1 + [ConnEvent.open, ConnEvent.close, ConnEvent.tick].count .tick)
            (Stream.listenKeyRequest (Stream.new "btcusd" "key").apiKey) :=
  ⟨rfl, rfl, by decide,
    (timers_never_cleared (Socket.new "key" "secret") (Stream.new "btcusd" "key") "listenKey"
      [.close, .tick] [.open, .close, .tick] [.open, .close, .tick] rfl rfl
      (by decide)).2.2.1,
    (timers_never_cleared (Socket.new "key" "secret") (Stream.new "btcusd" "key") "listenKey"
      [.close, .tick] [.open, .close, .tick] [.open, .close, .tick] rfl rfl
      (by decide)).2.2.2⟩

/-! ## The `symbols` argument of the ticker methods -/

theorem Obj.mem_keys_set (d : Obj) (k : String) (v : JSVal) (k' : String) :
    k' ∈ Obj.keys (Obj.set d k v) ↔ k' = k ∨ k' ∈ Obj.keys d := by
  by_cases h : k ∈ Obj.keys d
  · rw [Obj.keys_set_of_mem v h]
    constructor
    · exact Or.inr
    · rintro (e | e)
      · exact e ▸ h
      · exact e
  · rw [Obj.set_of_not_mem v h]
    simp only [Obj.keys, List.map_append, List.map_cons, List.map_nil, List.mem_append,
      List.mem_singleton]
    exact Or.comm

/-- The shared block follows the rule, on parameters that hold neither key before. -/
theorem setSymbols_rule (params : Obj) (h1 : "symbol" ∉ Obj.keys params)
    (h2 : "symbols" ∉ Obj.keys params) (symbols : JSVal) :
    SymbolRule symbols (setSymbols params symbols) := by
  refine ⟨?_, ?_, ?_, ?_⟩
  · intro s hs hne
    subst hs
    have ht : (JSVal.str s).truthy = true := by simpa [JSVal.truthy] using hne
    simp only [setSymbols, ht, if_true]
    refine ⟨by rw [Obj.get_set, if_pos rfl], ?_⟩
    rw [Obj.mem_keys_set]
    rintro (e | e)
    · exact absurd e (by decide)
    · exact h2 e
  · intro a ha
    subst ha
    simp only [setSymbols, JSVal.truthy, if_true, jsonStringify]
    refine ⟨by rw [Obj.get_set, if_pos rfl], ?_⟩
    rw [Obj.mem_keys_set]
    rintro (e | e)
    · exact absurd e (by decide)
    · exact h1 e
  · rintro (hs | hs) <;> subst hs <;> exact ⟨h1, h2⟩
  · rintro ⟨ha, hb⟩
    unfold setSymbols at ha hb
    by_cases ht : symbols.truthy = true
    · rw [if_pos ht] at ha hb
      cases symbols with
      | str s =>
        simp only [Obj.mem_keys_set] at hb
        rcases hb with e | e
        · exact absurd e (by decide)
        · exact h2 e
      | undefined => simp [JSVal.truthy] at ht
      | null => simp [JSVal.truthy] at ht
      | bool b =>
        simp only [Obj.mem_keys_set] at ha
        rcases ha with e | e
        · exact absurd e (by decide)
        · exact h1 e
      | num n =>
        simp only [Obj.mem_keys_set] at ha
        rcases ha with e | e
        · exact absurd e (by decide)
        · exact h1 e
      | arr xs =>
        simp only [Obj.mem_keys_set] at ha
        rcases ha with e | e
        · exact absurd e (by decide)
        · exact h1 e
      | obj kvs =>
        simp only [Obj.mem_keys_set] at ha
        rcases ha with e | e
        · exact absurd e (by decide)
        · exact h1 e
    · rw [if_neg ht] at ha
      exact h1 ha

theorem shorthand_window (symbols w t : JSVal) :
    shorthand [("symbols", symbols), ("windowSize", w), ("type", t)] ["windowSize", "type"]
      = .ok [("windowSize", w), ("type", t)] := rfl

/-- C11, the claim as stated fails: the empty string is a string, and called with it
`getExchangeInformation` sends no `symbol` parameter (nor `symbols`), in `Web` and in
`Socket` alike. -/
theorem symbols_empty_string_counterexample :
    ((Web.getExchangeInformation ⟨"key", "secret"⟩ (.str "")).toOption.map
        fun reqs => reqs.map fun r => Obj.keys r.params) = some [[]]
    ∧ setSymbols [] (.str "") = []
    ∧ ¬ (∀ (self : Web) (s : String),
          ∀ reqs, Web.getExchangeInformation self (.str s) = .ok reqs →
            ∀ req ∈ reqs, "symbol" ∈ Obj.keys req.params) := by
  refine ⟨by decide, rfl, fun h => ?_⟩
  have := h ⟨"key", "secret"⟩ "" _ rfl _ (List.mem_singleton_self _)
  exact absurd this (by decide)

/-- C11 as amended: each of `getExchangeInformation`, `getLiveTickerPrice`,
`getBestOrderBookPrice`, `getPriceChangeStatistics` and
`getRollingWindowPriceChangeStatistics`, in `Web` (one `GET` request) and in `Socket` (one
frame), builds parameters in which a non-empty string argument is `symbol` and
there is no `symbols`, an array argument is its JSON text under `symbols` and
there is no `symbol`, an absent argument or the empty string gives neither key,
and the two keys are never both present. -/
theorem symbols_argument_rule (self : Web) (sock : Socket) (symbols windowSize type : JSVal) :
    (∃ req, Web.getExchangeInformation self symbols = .ok [req]
      ∧ req.url = Web.apiURL ++ "/api/v3/exchangeInfo" ∧ SymbolRule symbols req.params)
    ∧ (∃ req, Web.getLiveTickerPrice self symbols = .ok [req]
      ∧ req.url = Web.apiURL ++ "/api/v3/ticker/price" ∧ SymbolRule symbols req.params)
    ∧ (∃ req, Web.getBestOrderBookPrice self symbols = .ok [req]
      ∧ req.url = Web.apiURL ++ "/api/v3/ticker/bookTicker" ∧ SymbolRule symbols req.params)
    ∧ (∃ req, Web.getPriceChangeStatistics self symbols = .ok [req]
      ∧ req.url = Web.apiURL ++ "/api/v3/ticker/24hr" ∧ SymbolRule symbols req.params)
    ∧ (∃ req,
      Web.getRollingWindowPriceChangeStatistics self symbols windowSize type = .ok [req]
      ∧ req.url = Web.apiURL ++ "/api/v3/ticker" ∧ SymbolRule symbols req.params)
    ∧ (∃ params, SymbolRule symbols params
      ∧ Socket.getExchangeInformation sock symbols
          = Socket.send sock
              (Socket.frame (.str "exchangeInformation") "exchangeInfo" (.obj params)))
    ∧ (∃ params, SymbolRule symbols params
      ∧ Socket.getLiveTickerPrice sock symbols
          = Socket.send sock
              (Socket.frame (.str "liveTickerPrice") "ticker.price" (.obj params)))
    ∧ (∃ params, SymbolRule symbols params
      ∧ Socket.getBestOrderBookPrice sock symbols
          = Socket.send sock
              (Socket.frame (.str "orderBookTicker") "ticker.book" (.obj params)))
    ∧ (∃ params, SymbolRule symbols params
      ∧ Socket.getPriceChangeStatistics sock symbols
          = Socket.send sock
              (Socket.frame (.str "priceChangeStatistics") "ticker.24hr" (.obj params)))
    ∧ (∃ params, SymbolRule symbols params
      ∧ Socket.getRollingWindowPriceChangeStatistics sock symbols windowSize type
          = Socket.send sock
              (Socket.frame (.str "rollingWindowPriceChangeStatistice") "ticker"
                (.obj params))) := by
  have h0 : SymbolRule symbols (setSymbols [] symbols) :=
    setSymbols_rule [] (by decide) (by decide) symbols
  have hw : SymbolRule symbols
      (setSymbols [("windowSize", orDefault windowSize (.str "1d")),
        ("type", orDefault type (.str "FULL"))] symbols) :=
    setSymbols_rule _ (by simp [Obj.keys]) (by simp [Obj.keys]) symbols
  refine ⟨⟨_, rfl, rfl, h0⟩, ⟨_, rfl, rfl, h0⟩, ⟨_, rfl, rfl, h0⟩,
    ⟨_, rfl, rfl, h0⟩,
    ⟨Web.axiosGet (Web.apiURL ++ "/api/v3/ticker")
      (setSymbols [("windowSize", orDefault windowSize (.str "1d")),
        ("type", orDefault type (.str "FULL"))] symbols) [], ?_, rfl, hw⟩,
    ⟨_, h0, rfl⟩, ⟨_, h0, rfl⟩, ⟨_, h0, rfl⟩, ⟨_, h0, rfl⟩, ⟨_, hw, ?_⟩⟩
  · simp only [Web.getRollingWindowPriceChangeStatistics, shorthand_window]
  · simp only [Socket.getRollingWindowPriceChangeStatistics, shorthand_window]
    rfl

/-- C11 as amended, at the string `"BTCUSD"`. -/
theorem symbols_argument_rule_witness :
    ∃ req, Web.getExchangeInformation ⟨"key", "secret"⟩ (.str "BTCUSD") = .ok [req]
      ∧ Obj.get req.params "symbol" = .str "BTCUSD" ∧ "symbols" ∉ Obj.keys req.params :=
  match (symbols_argument_rule ⟨"key", "secret"⟩ (Socket.new "key" "secret") (.str "BTCUSD")
      .undefined .undefined).1 with
  | ⟨req, h1, _, h3⟩ => ⟨req, h1, h3.1 "BTCUSD" rfl (by decide)⟩

/-! ## Effect of `generateSignature` on the mapping it is given -/

/-- C12, the claim as stated fails: the call deletes the `undefined`-valued keys from the
mapping it is given, so the mapping does not hold the same keys afterwards. -/
theorem generateSignature_mutates_counterexample :
    Obj.keys [("a", .undefined), ("b", .num 1)] = ["a", "b"]
    ∧ Obj.keys (generateSignature (fun key msg => key ++ ":" ++ msg) "secret"
        [("a", .undefined), ("b", .num 1)]).2 = ["b"]
    ∧ ¬ (∀ (hmac : String → String → String) (secretKey : String) (data : Obj),
          Obj.WF data → (generateSignature hmac secretKey data).2 = data) := by
  refine ⟨rfl, by decide, fun h => ?_⟩
  have := h (fun key msg => key ++ ":" ++ msg) "secret" [("a", .undefined), ("b", .num 1)]
    (by decide)
  exact absurd (congrArg Obj.keys this) (by decide)

/-- C12 as amended: a second call on the mapping as the first call left it returns the
same signature and changes nothing more; the one effect of a call on the mapping
is that the `undefined`-valued keys are deleted: the other entries stay, in
order, every key reads the same value after the call as before, and a mapping
without `undefined` values is left as it was.  `Web` and `Socket` compute the same
function. -/
theorem generateSignature_effect (hmac : String → String → String) (secretKey : String)
    (data : Obj) (hd : Obj.WF data) :
    (generateSignature hmac secretKey (generateSignature hmac secretKey data).2).1
        = (generateSignature hmac secretKey data).1
    ∧ (generateSignature hmac secretKey (generateSignature hmac secretKey data).2).2
        = (generateSignature hmac secretKey data).2
    ∧ (generateSignature hmac secretKey data).2 = data.filter (fun p => !p.2.isUndefined)
    ∧ (∀ k, Obj.get (generateSignature hmac secretKey data).2 k = Obj.get data k)
    ∧ ((∀ p ∈ data, p.2.isUndefined = false) →
        (generateSignature hmac secretKey data).2 = data)
    ∧ (∀ apiKey, Web.generateSignature hmac ⟨apiKey, secretKey⟩ data
        = Socket.generateSignature hmac (Socket.new apiKey secretKey) data) := by
  have hf : (generateSignature hmac secretKey data).2
      = data.filter (fun p => !p.2.isUndefined) := deleteUndefined_eq_filter hd
  have hidem : deleteUndefined (data.filter fun p => !p.2.isUndefined)
      = deleteUndefined data := deleteUndefined_idem hd
  refine ⟨?_, ?_, hf, ?_, ?_, fun _ => rfl⟩
  · rw [hf]
    simp only [generateSignature, signedQuery, signedPairs, hidem]
  · rw [hf]
    simp only [generateSignature, hidem]
    exact deleteUndefined_eq_filter hd
  · intro k
    rw [hf, Obj.get_filter hd]
  · intro h
    rw [hf]
    apply List.filter_eq_self.mpr
    intro p hp
    simp [h p hp]

/-- C12 as amended, at `{b: 2, x: undefined, a: "1"}`. -/
theorem generateSignature_effect_witness :
    Obj.WF [("b", .num 2), ("x", .undefined), ("a", .str "1")]
    ∧ (generateSignature (fun key msg => key ++ ":" ++ msg) "secret"
          (generateSignature (fun key msg => key ++ ":" ++ msg) "secret"
            [("b", .num 2), ("x", .undefined), ("a", .str "1")]).2).1
        = (generateSignature (fun key msg => key ++ ":" ++ msg) "secret"
            [("b", .num 2), ("x", .undefined), ("a", .str "1")]).1 :=
  ⟨by decide,
    (generateSignature_effect (fun key msg => key ++ ":" ++ msg) "secret"
      [("b", .num 2), ("x", .undefined), ("a", .str "1")] (by decide)).1⟩

/-! ## `parseNumbers` -/

theorem parseNumbers_foldl_cons (p : String × JSVal) (ks : List String) (hp : p.1 ∉ ks) :
    ∀ r : Obj,
      ks.foldl (fun acc key => Obj.set acc key (plusOrSelf (Obj.get acc key))) (p :: r)
        = p :: ks.foldl (fun acc key => Obj.set acc key (plusOrSelf (Obj.get acc key))) r := by
  induction ks with
  | nil => intro r; rfl
  | cons k ks ih =>
    intro r
    obtain ⟨k0, v0⟩ := p
    have h : ¬ k0 = k ∧ k0 ∉ ks := by simpa using hp
    simp only [List.foldl_cons, Obj.get, Obj.set, h.1, if_false]
    exact ih h.2 _

/-- On an object, `parseNumbers` puts `+v || v` in the place of every value `v`. -/
theorem parseNumbers_eq_map (d : Obj) (hd : Obj.WF d) :
    Stream.parseNumbers d = d.map (fun p => (p.1, plusOrSelf p.2)) := by
  induction d with
  | nil => rfl
  | cons p r ih =>
    obtain ⟨k, v⟩ := p
    have hnd : k ∉ Obj.keys r ∧ Obj.WF r := by
      simpa [Obj.WF, Obj.keys] using hd
    have := parseNumbers_foldl_cons (k, plusOrSelf v) (Obj.keys r) hnd.1 r
    simp only [Stream.parseNumbers, Obj.keys, List.map_cons, List.foldl_cons, Obj.get,
      Obj.set, if_true] at this ⊢
    rw [this]
    congr 1
    exact ih hnd.2

/-- C13, the code at the failing inputs: `parseNumbers` leaves the string `"0"` a string
(`+"0"` is `0`, which `||` takes for false), turns the boolean `true` into the
number `1` and the one-element array `["7"]` into the number `7`. -/
theorem parseNumbers_zero_and_true :
    Stream.parseNumbers [("price", .str "0")] = [("price", .str "0")]
    ∧ Stream.parseNumbers [("isBuyer", .bool true)] = [("isBuyer", .num 1)]
    ∧ Stream.parseNumbers [("bids", .arr [.str "7"])] = [("bids", .num 7)] :=
  ⟨rfl, rfl, rfl⟩

/-- What `parseNumbers` does do: a string that spells a non-zero integer becomes that
number, and `null`, `false`, numbers and plain objects stay as they are. -/
theorem parseNumbers_nonzero (d : Obj) (hd : Obj.WF d) :
    (∀ k s n, (k, JSVal.str s) ∈ d → stringToNumber s = some n → n ≠ 0 →
      Obj.get (Stream.parseNumbers d) k = .num n)
    ∧ (∀ k, (k, JSVal.null) ∈ d → Obj.get (Stream.parseNumbers d) k = .null)
    ∧ (∀ k, (k, JSVal.bool false) ∈ d → Obj.get (Stream.parseNumbers d) k = .bool false)
    ∧ (∀ k n, (k, JSVal.num n) ∈ d → Obj.get (Stream.parseNumbers d) k = .num n)
    ∧ (∀ k o, (k, JSVal.obj o) ∈ d → Obj.get (Stream.parseNumbers d) k = .obj o) := by
  have hwf : Obj.WF (d.map fun p => (p.1, plusOrSelf p.2)) := by
    simpa [Obj.WF, Obj.keys, List.map_map, Function.comp_def] using hd
  have key : ∀ k v, (k, v) ∈ d → Obj.get (Stream.parseNumbers d) k = plusOrSelf v := by
    intro k v h
    rw [parseNumbers_eq_map d hd]
    exact Obj.get_of_mem hwf (List.mem_map.mpr ⟨(k, v), h, rfl⟩)
  refine ⟨?_, ?_, ?_, ?_, ?_⟩
  · intro k s n h hs hn
    rw [key k _ h]
    simp [plusOrSelf, toNumber, hs, hn]
  · intro k h
    rw [key k _ h]; rfl
  · intro k h
    rw [key k _ h]; rfl
  · intro k n h
    rw [key k _ h]
    by_cases hn : n = 0 <;> simp [plusOrSelf, toNumber, hn]
  · intro k o h
    rw [key k _ h]
    have : stringToNumber "[object Object]" = none := by decide
    simp [plusOrSelf, toNumber, JSVal.toStr, this]

/-! ## The methods of `Web` -/

/-- C14, the code at the failing inputs: for every argument list `cancelOrder` throws a
`ReferenceError` when its object literal reads `origClientOrderId`, which is not
one of its parameters, and makes no request; `getServerTime` makes its request
to the bare path `/api/v3/time`, which is not `Web.apiURL` followed by the path. -/
theorem web_cancelOrder_getServerTime (hmac : String → String → String) (self : Web)
    (now : Int) (symbol orderId newClientOrderId cancelRestrictions : JSVal) :
    Web.cancelOrder hmac self now symbol orderId newClientOrderId cancelRestrictions
        = .error (referenceError "origClientOrderId")
    ∧ Web.getServerTime self
        = .ok [{ method := "GET", url := "/api/v3/time", headers := [], params := [] }]
    ∧ "/api/v3/time" ≠ Web.apiURL ++ "/api/v3/time" :=
  ⟨rfl, rfl, by decide⟩

/-- The other methods modelled make one request to `Web.apiURL` followed by their path,
and the `cancelOrder` of `Socket`, whose literal names its parameters only, does
not throw while it builds its parameters. -/
theorem web_methods_base_url (hmac : String → String → String) (self : Web) (now : Int)
    (symbol limit orderId newClientOrderId cancelRestrictions : JSVal) :
    (∃ req, Web.getSystemStatus hmac self now = .ok [req] ∧ req.method = "GET"
      ∧ req.url = Web.apiURL ++ "/sapi/v1/system/status")
    ∧ (∃ req, Web.getRecentTrades self symbol limit = .ok [req] ∧ req.method = "GET"
      ∧ req.url = Web.apiURL ++ "/api/v3/trades")
    ∧ (∃ req, Web.getOpenOrders hmac self now symbol = .ok [req] ∧ req.method = "GET"
      ∧ req.url = Web.apiURL ++ "/api/v3/openOrders")
    ∧ (∃ req, Web.cancelOpenOrders hmac self now symbol = .ok [req] ∧ req.method = "DELETE"
      ∧ req.url = Web.apiURL ++ "/api/v3/openOrders")
    ∧ shorthand [("symbol", symbol), ("orderId", orderId),
          ("newClientOrderId", newClientOrderId), ("cancelRestrictions", cancelRestrictions)]
          ["symbol", "orderId", "newClientOrderId", "cancelRestrictions"]
        = .ok [("symbol", symbol), ("orderId", orderId),
          ("newClientOrderId", newClientOrderId),
          ("cancelRestrictions", cancelRestrictions)] :=
  ⟨⟨_, rfl, rfl, rfl⟩, ⟨_, rfl, rfl, rfl⟩, ⟨_, rfl, rfl, rfl⟩,
    ⟨_, rfl, rfl, rfl⟩, rfl⟩

end BinanceUS
